import Mathlib

/-!
# Verification of the Brewin v3 interpreter core

This file is a shallow embedding, in Lean 4, of the final ("v3") revision of
the Brewin class-based teaching-language interpreter: the static program model
(`classv3.py`), the lexical scope manager (`env_v3.py`), the object runtime and
tree-walking evaluator (`objectv3.py`), and the session driver
(`interpreterv3.py`).

Conventions of the embedding:

* Parsed programs are token trees (`SExpr`), exactly as the external parser
  hands them to the interpreter.  Source-line annotations are dropped: errors
  are modelled by their kind only, not by their message or line number.
* Python dictionaries become insertion-ordered association lists with
  replace-on-insert semantics (`dictInsert` / `dictGet`).
* The scope-frame stack stores the innermost frame at the head of the list
  (Python appends frames at the end and searches `reversed(...)`).
* Heap objects are chains of runtime levels (most derived first), referenced
  by chain id and level index; a `Value` holding an object reference always
  holds the anchor (level 0), as in the source.
* Mutation is explicit state passing; the mutually recursive evaluator is
  total via a fuel parameter (`Fault.outOfFuel` when it runs out).
* Places where the Python program itself would raise an uncaught host
  exception (`None` dereference, `KeyError`, division by zero, malformed
  trees) are modelled by `Fault.crash`.
* The external modules `intbase.py`, `type_valuev3.py` and `bparser.py` are
  out-of-scope collaborators; the definitions below that embed their contract
  are marked `Modelled from the spec:` and follow the specification's words.
-/

set_option maxRecDepth 10000

namespace Brewin

/-! ## Host error kinds and faults -/

/-- Modelled from the spec: the four host error kinds of `intbase.ErrorType`
(`SYNTAX_ERROR`, `NAME_ERROR`, `TYPE_ERROR`, `FAULT_ERROR`). -/
inductive ErrorType where
  | synError
  | nameError
  | typeError
  | faultError
  deriving DecidableEq, Repr

/-- Outcome tag for a modelled computation: a reported host error, fuel
exhaustion of the embedding, or a point where the Python source itself would
raise an uncaught host exception. -/
inductive Fault where
  | hostError (e : ErrorType)
  | outOfFuel
  | crash
  deriving DecidableEq, Repr

/-- Result monad of the embedding. -/
abbrev ExecRes (α : Type) := Except Fault α

/-! ## Token-tree syntax -/

/-- A parsed program tree: string tokens and nested lists, exactly the shape
produced by the external parser. -/
inductive SExpr where
  | atom (s : String)
  | lst (xs : List SExpr)
  deriving Repr, Inhabited

mutual

def SExpr.decEq : (a b : SExpr) → Decidable (a = b)
  | .atom s, .atom t =>
    if h : s = t then .isTrue (by rw [h]) else .isFalse (by simp [h])
  | .atom _, .lst _ => .isFalse (fun h => SExpr.noConfusion h)
  | .lst _, .atom _ => .isFalse (fun h => SExpr.noConfusion h)
  | .lst xs, .lst ys =>
    match SExpr.decEqList xs ys with
    | .isTrue h => .isTrue (by rw [h])
    | .isFalse h => .isFalse (by intro hc; injection hc; contradiction)

def SExpr.decEqList : (a b : List SExpr) → Decidable (a = b)
  | [], [] => .isTrue rfl
  | [], _ :: _ => .isFalse (fun h => List.noConfusion h)
  | _ :: _, [] => .isFalse (fun h => List.noConfusion h)
  | x :: xs, y :: ys =>
    match SExpr.decEq x y, SExpr.decEqList xs ys with
    | .isTrue h1, .isTrue h2 => .isTrue (by rw [h1, h2])
    | .isFalse h1, _ => .isFalse (by intro hc; injection hc; contradiction)
    | _, .isFalse h2 => .isFalse (by intro hc; injection hc; contradiction)

end

instance : DecidableEq SExpr := SExpr.decEq

/-- `code[i]` on a token list; out-of-range access (a host crash in Python)
defaults to the empty atom, which no well-formed program contains. -/
def listAt (xs : List SExpr) (i : Nat) : SExpr :=
  xs.getD i (.atom "")

/-- The token string of an atom; a nested list has no token. -/
def SExpr.asAtom : SExpr → String
  | .atom s => s
  | .lst _ => ""

/-- `code[i]` read as a token string. -/
def atomAt (xs : List SExpr) (i : Nat) : String :=
  (listAt xs i).asAtom

/-! ## Language keyword tokens

Modelled from the spec: the fixed token constants of `intbase.InterpreterBase`
consumed by the core (statement keywords, `me`/`super`, the entry class and
method names, the reserved catch variable, and the `@` type-concatenation
character used by generic-class mangled names). -/

def beginDef : String := "begin"
def setDef : String := "set"
def ifDef : String := "if"
def callDef : String := "call"
def whileDef : String := "while"
def returnDef : String := "return"
def throwDef : String := "throw"
def tryDef : String := "try"
def inputStringDef : String := "inputs"
def inputIntDef : String := "inputi"
def printDef : String := "print"
def letDef : String := "let"
def classDef : String := "class"
def templateClassDef : String := "tclass"
def inheritsDef : String := "inherits"
def fieldDef : String := "field"
def methodDef : String := "method"
def voidDef : String := "void"
def nothingDef : String := "nothing"
def nullDef : String := "null"
def trueDef : String := "true"
def falseDef : String := "false"
def mainClassDef : String := "main"
def mainFuncDef : String := "main"
def meDef : String := "me"
def superDef : String := "super"
def exceptionVariableDef : String := "exception"
def intDef : String := "int"
def stringDef : String := "string"
def boolDef : String := "bool"
def newDef : String := "new"

/-- Splitting a type token on the `@` type-concatenation character
(`str.split(InterpreterBase.TYPE_CONCAT_CHAR)` in the source), written
directly over the character list to keep it kernel-reducible. -/
def splitPartsAux : List Char → List Char → List String
  | [], acc => [String.mk acc.reverse]
  | c :: cs, acc =>
    if c = '@' then String.mk acc.reverse :: splitPartsAux cs []
    else splitPartsAux cs (c :: acc)

def splitParts (s : String) : List String :=
  splitPartsAux s.toList []

/-- Joining name parts with the `@` type-concatenation character. -/
def joinParts : List String → String
  | [] => ""
  | [p] => p
  | p :: ps => p ++ "@" ++ joinParts ps

/-! ## Python-dictionary helpers -/

/-- Insertion-ordered map update: replace in place if the key exists,
otherwise append (Python `d[k] = v`). -/
def dictInsert {α : Type} : List (String × α) → String → α → List (String × α)
  | [], k, v => [(k, v)]
  | (k', v') :: rest, k, v =>
    if k' = k then (k, v) :: rest else (k', v') :: dictInsert rest k v

/-- Python `d[k]` / `d.get(k)`. -/
def dictGet {α : Type} : List (String × α) → String → Option α
  | [], _ => none
  | (k', v') :: rest, k => if k' = k then some v' else dictGet rest k

/-- Python `k in d`. -/
def dictContains {α : Type} (m : List (String × α)) (k : String) : Bool :=
  (dictGet m k).isSome

/-! ## Types and values

Modelled from the spec: the external type/value module (`type_valuev3.py`)
exposes a `Type` wrapper around a type name, a typed value wrapper with
`.type()`, `.value()`, `.is_null()`, `.is_typeless_null()`, and the
`create_value` / `create_default_value` constructors. -/

/-- A static type: a wrapper around its type name. -/
structure Ty where
  typeName : String
  deriving DecidableEq, Repr

/-- A runtime payload, mirroring what a Python `Value` can hold: an integer, a
string, a boolean, an object reference (identified by its heap chain id; a
`Value` always holds the anchor level), or `None` (null). -/
inductive Pval where
  | int (i : Int)
  | str (s : String)
  | bool (b : Bool)
  | obj (chainId : Nat)
  | null
  deriving DecidableEq, Repr

/-- A typed runtime value. -/
structure Value where
  typ : Ty
  val : Pval
  deriving DecidableEq, Repr

def intTy : Ty := ⟨intDef⟩
def stringTy : Ty := ⟨stringDef⟩
def boolTy : Ty := ⟨boolDef⟩
def nothingTy : Ty := ⟨nothingDef⟩
def nullTy : Ty := ⟨nullDef⟩

def Value.isNull (v : Value) : Bool :=
  v.val = .null

/-- Modelled from the spec: a typeless null is a null that carries no class
tag, i.e. still has the null type it was created with. -/
def Value.isTypelessNull (v : Value) : Bool :=
  v.typ = nullTy && v.val = .null

/-- Decimal-digit parsing of a token, written over the character list to
keep it kernel-reducible. -/
def digitsToNat : List Char → Option Nat → Option Nat
  | [], acc => acc
  | c :: cs, acc =>
    if c.isDigit then
      digitsToNat cs (some ((acc.getD 0) * 10 + (c.toNat - '0'.toNat)))
    else none

/-- An integer literal token: an optional minus sign followed by digits. -/
def parseIntToken (token : String) : Option Int :=
  match token.toList with
  | '-' :: rest => (digitsToNat rest none).map (fun n => -(n : Int))
  | cs => (digitsToNat cs none).map (fun n => (n : Int))

/-- Modelled from the spec: `create_value(token)` parses a literal token:
the fixed boolean literal tokens, the null literal, a double-quoted string
(quotes stripped), or an integer literal; any other token denotes no
value. -/
def createValue (token : String) : Option Value :=
  if token = trueDef then some ⟨boolTy, .bool true⟩
  else if token = falseDef then some ⟨boolTy, .bool false⟩
  else if token = nullDef then some ⟨nullTy, .null⟩
  else
    match token.toList with
    | '\x22' :: rest => some ⟨stringTy, .str (String.mk rest.dropLast)⟩
    | _ =>
      match parseIntToken token with
      | some i => some ⟨intTy, .int i⟩
      | none => none

/-- Modelled from the spec: `create_default_value(type)` yields the declared
default value of a type: `0`, `""`, `false` for the primitives, and a null
stamped with the declared type for class types (and for the `nothing` type of
void methods). -/
def createDefaultValue (t : Ty) : Option Value :=
  if t = intTy then some ⟨intTy, .int 0⟩
  else if t = stringTy then some ⟨stringTy, .str ""⟩
  else if t = boolTy then some ⟨boolTy, .bool false⟩
  else some ⟨t, .null⟩

/-! ## Type manager

Modelled from the spec: the external type registry exposes
`add_class_type(name, superclass_or_none)`, `is_valid_type`, `is_a_subtype`,
and `check_type_compatibility(target, source, for_assignment)` with the
required semantics: identical type names are always compatible; a subclass
value is compatible where a superclass type is expected; the reverse is
rejected for assignment; a typeless null is compatible with any non-primitive
(class-typed) target; a declared `nothing`/void type is compatible with
nothing; object references compare via subtype-aware compatibility in either
direction. -/

def primitiveTypes : List String := [intDef, stringDef, boolDef]

structure TypeManager where
  classTypes : List (String × Option String)
  deriving Repr

def TypeManager.empty : TypeManager := ⟨[]⟩

def TypeManager.addClassType (tm : TypeManager) (name : String)
    (superclass : Option String) : TypeManager :=
  ⟨dictInsert tm.classTypes name superclass⟩

def TypeManager.isValidType (tm : TypeManager) (name : String) : Bool :=
  name ∈ primitiveTypes || dictContains tm.classTypes name

def isPrimitiveName (name : String) : Bool :=
  name ∈ primitiveTypes

/-- The superclass chain of a class name, starting at the name itself and
following registered superclass links (bounded by the registry size, which a
cycle-free registry never reaches). -/
def ancestorChainAux (tm : TypeManager) : Nat → String → List String
  | 0, name => [name]
  | steps + 1, name =>
    name :: (match dictGet tm.classTypes name with
      | some (some sup) => ancestorChainAux tm steps sup
      | _ => [])

def ancestorChain (tm : TypeManager) (name : String) : List String :=
  ancestorChainAux tm tm.classTypes.length name

/-- `is_a_subtype(super_candidate, sub_candidate)`: the suspected supertype
occurs on the suspected subtype's superclass chain. -/
def TypeManager.isASubtype (tm : TypeManager) (sup sub : String) : Bool :=
  sup ∈ ancestorChain tm sub

/-- `check_type_compatibility(typea, typeb, for_assignment)`; `typea` is the
target (left-hand side) type and `typeb` the source (right-hand side) type. -/
def TypeManager.checkTypeCompatibility (tm : TypeManager) (typea typeb : Ty)
    (forAssignment : Bool) : Bool :=
  if typea.typeName = nothingDef || typeb.typeName = nothingDef then false
  else if typea = typeb then true
  else if typeb = nullTy then !isPrimitiveName typea.typeName
  else if typea = nullTy then !forAssignment && !isPrimitiveName typeb.typeName
  else if isPrimitiveName typea.typeName || isPrimitiveName typeb.typeName then
    false
  else if tm.isASubtype typea.typeName typeb.typeName then true
  else if !forAssignment && tm.isASubtype typeb.typeName typea.typeName then
    true
  else false

/-! ## Variable definitions and the scope manager (`classv3.VariableDef`,
`env_v3.EnvironmentManager`) -/

/-- `VariableDef`: declared type, name, and optional current value.  Used
uniformly for fields, formal parameters, and locals. -/
structure VariableDef where
  type : Ty
  name : String
  value : Option Value
  deriving DecidableEq, Repr

def VariableDef.setValue (vd : VariableDef) (v : Value) : VariableDef :=
  { vd with value := some v }

/-- The lexical environment: a stack of frames mapping symbols to variable
slots.  The innermost frame is at the head of the list (the Python source
appends frames at the end of `self.environment` and searches `reversed`).
A slot is `none` between `create_new_symbol` and the first `set`. -/
structure Env where
  environment : List (List (String × Option VariableDef))
  deriving Repr

/-- A fresh environment has a single empty frame (`[{}]`). -/
def Env.empty : Env := ⟨[[]]⟩

/-- `get(symbol)`: search frames innermost to outermost; a created-but-unset
slot reads as `None` in Python, hence flattens to `none` here. -/
def Env.get (env : Env) (symbol : String) : Option VariableDef :=
  match env.environment.findSome? (fun frame => dictGet frame symbol) with
  | some slot => slot
  | none => none

/-- `create_new_symbol(symbol)`: fails (returns `false`) only when the symbol
already exists in the innermost frame. -/
def Env.createNewSymbol (env : Env) (symbol : String) : Bool × Env :=
  match env.environment with
  | [] => (false, env)
  | frame :: rest =>
    if dictContains frame symbol then (false, env)
    else (true, ⟨dictInsert frame symbol none :: rest⟩)

/-- `set(symbol, value)`: update the nearest frame containing the symbol. -/
def envSetAux (symbol : String) (vd : VariableDef) :
    List (List (String × Option VariableDef)) →
      Bool × List (List (String × Option VariableDef))
  | [] => (false, [])
  | frame :: rest =>
    if dictContains frame symbol then
      (true, dictInsert frame symbol (some vd) :: rest)
    else
      match envSetAux symbol vd rest with
      | (ok, rest') => (ok, frame :: rest')

def Env.set (env : Env) (symbol : String) (vd : VariableDef) : Bool × Env :=
  match envSetAux symbol vd env.environment with
  | (ok, frames) => (ok, ⟨frames⟩)

/-- `block_nest()`: push an empty frame. -/
def Env.blockNest (env : Env) : Env :=
  ⟨[] :: env.environment⟩

/-- `block_unnest()`: pop the innermost frame. -/
def Env.blockUnnest (env : Env) : Env :=
  ⟨env.environment.tail⟩

/-! ## Static program model (`classv3.MethodDef` / `ClassDef` /
`TemplateClassDef`) -/

/-- `MethodDef`: name, return type, ordered formal parameters, body tree. -/
structure MethodDef where
  methodName : String
  returnType : Ty
  formalParams : List VariableDef
  code : SExpr
  deriving Repr

/-- Parsing the formal-parameter list `[[type1 param1] [type2 param2] ...]`. -/
def parseParams (params : List SExpr) : List VariableDef :=
  params.map (fun param =>
    match param with
    | .lst p => ⟨⟨atomAt p 0⟩, atomAt p 1, none⟩
    | .atom _ => ⟨⟨""⟩, "", none⟩)

/-- `MethodDef.__init__` on
`[method return_type method_name [[t1 p1] ...] [statement]]`; a declared
`void` return type is stored as the `nothing` type. -/
def MethodDef.ofSource (methodSource : List SExpr) : MethodDef :=
  { methodName := atomAt methodSource 2
    returnType :=
      if atomAt methodSource 1 = voidDef then nothingTy
      else ⟨atomAt methodSource 1⟩
    formalParams :=
      match listAt methodSource 3 with
      | .lst ps => parseParams ps
      | .atom _ => []
    code := listAt methodSource 4 }

/-- `ClassDef`: name, ordered field list, ordered method list, and an optional
superclass reference (a nested `ClassDef`, resolved eagerly at construction
time exactly as the Python object graph stores it). -/
inductive ClassDef where
  | mk (name : String) (fields : List VariableDef) (methods : List MethodDef)
      (superClass : Option ClassDef)

def ClassDef.name : ClassDef → String
  | .mk n _ _ _ => n

def ClassDef.fields : ClassDef → List VariableDef
  | .mk _ f _ _ => f

def ClassDef.methods : ClassDef → List MethodDef
  | .mk _ _ m _ => m

def ClassDef.superClass : ClassDef → Option ClassDef
  | .mk _ _ _ s => s

/-- `TemplateClassDef`: blueprint name, ordered template parameter names, and
the raw declaration tree. -/
structure TemplateClassDef where
  name : String
  templatedTypes : List String
  classSource : SExpr
  deriving Repr, DecidableEq

/-- `TemplateClassDef.__replace`: structurally substitute every template
parameter occurrence — bare, or as a component of an `@`-joined compound type
name — with its actual type name. -/
def substAtom (templateToActual : List (String × String)) (s : String) :
    String :=
  match dictGet templateToActual s with
  | some actual => actual
  | none =>
    let codeParts := splitParts s
    if codeParts.length > 1 then
      joinParts (codeParts.map (fun c =>
        match dictGet templateToActual c with
        | some actual => actual
        | none => c))
    else s

mutual

def replaceS (templateToActual : List (String × String)) : SExpr → SExpr
  | .atom s => .atom (substAtom templateToActual s)
  | .lst xs => .lst (replaceL templateToActual xs)

def replaceL (templateToActual : List (String × String)) :
    List SExpr → List SExpr
  | [] => []
  | x :: xs => replaceS templateToActual x :: replaceL templateToActual xs

end

/-! ## Object runtime state -/

/-- One runtime level of an object instance: its class definition, its method
table (`__map_method_names_to_method_definitions`), and its mutable field
table (`__instantiate_fields`, seeded from the class's field defaults). -/
structure LevelState where
  classDef : ClassDef
  methods : List (String × MethodDef)
  fields : List (String × VariableDef)

/-- A reference to one runtime level of one heap object chain. -/
structure ObjRef where
  chain : Nat
  level : Nat
  deriving DecidableEq, Repr

/-- Build one runtime level from a class definition. -/
def mkLevel (cd : ClassDef) : LevelState :=
  { classDef := cd
    methods := cd.methods.foldl
      (fun m md => dictInsert m md.methodName md) []
    fields := cd.fields.foldl
      (fun m vd => dictInsert m vd.name vd) [] }

/-- `ObjectDef.__init__` + `__init_superclass_if_any`: one runtime level per
class in the inheritance chain, most derived first. -/
def buildChain : ClassDef → List LevelState
  | .mk n f m s =>
    mkLevel (.mk n f m s) ::
      (match s with
       | some sup => buildChain sup
       | none => [])

/-- The whole mutable interpreter state: the session's class and blueprint
registries and type manager, the object heap, the host input stream, and the
accumulated output lines. -/
structure ExecState where
  classIndex : List (String × Option ClassDef)
  templateIndex : List (String × TemplateClassDef)
  typeManager : TypeManager
  heap : List (List LevelState)
  inputs : List String
  output : List String

def ExecState.init (inputs : List String) : ExecState :=
  { classIndex := []
    templateIndex := []
    typeManager := TypeManager.empty
    heap := []
    inputs := inputs
    output := [] }

/-- Statement-execution statuses (`STATUS_PROCEED` / `STATUS_RETURN` /
`STATUS_EXCEPTION`). -/
inductive Status where
  | proceed
  | ret
  | exc
  deriving DecidableEq, Repr

/-- The `(status, value)` pair returned by every statement execution. -/
abbrev StmtRes := Status × Option Value

/-! ## Heap access helpers -/

def heapChainOf (st : ExecState) (chainId : Nat) : Option (List LevelState) :=
  st.heap[chainId]?

def heapLevelOf (st : ExecState) (r : ObjRef) : Option LevelState :=
  (st.heap[r.chain]?).bind (fun levels => levels[r.level]?)

/-- Write one field slot of one runtime level in place. -/
def heapSetField (st : ExecState) (r : ObjRef) (name : String)
    (vd : VariableDef) : ExecState :=
  match st.heap[r.chain]? with
  | none => st
  | some levels =>
    match levels[r.level]? with
    | none => st
    | some lvl =>
      let lvl' : LevelState :=
        { lvl with fields := dictInsert lvl.fields name vd }
      { st with heap := st.heap.set r.chain (levels.set r.level lvl') }

/-! ## Small pure runtime helpers from `objectv3.py` -/

/-- `ObjectDef.__propagate_type_to_null`: a read of a variable holding a null
(or still-uninitialized) value is re-tagged with the variable's declared
type. -/
def propagateTypeToNull (varDef : VariableDef) : Value :=
  match varDef.value with
  | none => ⟨varDef.type, .null⟩
  | some v => if v.isNull then ⟨varDef.type, .null⟩ else v

/-- Python truthiness of a payload (`if condition.value():`,
`not a.value()`). -/
def Pval.truthy : Pval → Bool
  | .int i => i ≠ 0
  | .str s => s ≠ ""
  | .bool b => b
  | .obj _ => true
  | .null => false

/-- Python `str(...)` of a payload as used by `__execute_print`.  The host
representation of an object reference (which Python renders with a memory
address, and which the source documents as never printed) is abstracted to a
fixed placeholder. -/
def pyStr : Pval → String
  | .int i => toString i
  | .str s => s
  | .bool b => if b then "True" else "False"
  | .obj _ => "<ObjectDef object>"
  | .null => "None"

/-- The per-operand rendering step of `__execute_print` (lines 350–358):
boolean-typed values render as the fixed literal tokens, everything else via
the host's `str`. -/
def renderValue (v : Value) : String :=
  if v.typ = boolTy then
    (if v.val = .bool true then trueDef else falseDef)
  else pyStr v.val

/-! ## Operator tables (`__create_map_of_operations_to_lambdas`) -/

def binaryOpList : List String :=
  ["+", "-", "*", "/", "%", "==", "!=", "<", "<=", ">", ">=", "&", "|"]

def unaryOpList : List String := ["!"]

/-- Keys of `self.binary_ops[INT_DEF]`. -/
def intOpNames : List String :=
  ["+", "-", "*", "/", "%", "==", "!=", ">", "<", ">=", "<="]

/-- Keys of `self.binary_ops[STRING_DEF]`. -/
def stringOpNames : List String :=
  ["+", "==", "!=", ">", "<", ">=", "<="]

/-- Keys of `self.binary_ops[BOOL_DEF]`. -/
def boolOpNames : List String := ["&", "|", "==", "!="]

/-- Keys of `self.binary_ops[CLASS_DEF]`. -/
def classOpNames : List String := ["==", "!="]

def Value.intValOr (v : Value) : ExecRes Int :=
  match v.val with
  | .int i => .ok i
  | _ => .error .crash

def Value.strValOr (v : Value) : ExecRes String :=
  match v.val with
  | .str s => .ok s
  | _ => .error .crash

def Value.boolValOr (v : Value) : ExecRes Bool :=
  match v.val with
  | .bool b => .ok b
  | _ => .error .crash

/-- The integer-operator lambdas.  `/` is Python `//` (floor division) and `%`
is Python `%` (floor modulus); both raise on a zero divisor, which the
embedding records as a crash. -/
def applyIntOp (op : String) (a b : Value) : ExecRes Value := do
  let x ← a.intValOr
  let y ← b.intValOr
  if op = "+" then .ok ⟨intTy, .int (x + y)⟩
  else if op = "-" then .ok ⟨intTy, .int (x - y)⟩
  else if op = "*" then .ok ⟨intTy, .int (x * y)⟩
  else if op = "/" then
    if y = 0 then .error .crash else .ok ⟨intTy, .int (Int.fdiv x y)⟩
  else if op = "%" then
    if y = 0 then .error .crash else .ok ⟨intTy, .int (Int.fmod x y)⟩
  else if op = "==" then .ok ⟨boolTy, .bool (x = y)⟩
  else if op = "!=" then .ok ⟨boolTy, .bool (x ≠ y)⟩
  else if op = ">" then .ok ⟨boolTy, .bool (x > y)⟩
  else if op = "<" then .ok ⟨boolTy, .bool (x < y)⟩
  else if op = ">=" then .ok ⟨boolTy, .bool (x ≥ y)⟩
  else if op = "<=" then .ok ⟨boolTy, .bool (x ≤ y)⟩
  else .error .crash

/-- The string-operator lambdas. -/
def applyStringOp (op : String) (a b : Value) : ExecRes Value := do
  let x ← a.strValOr
  let y ← b.strValOr
  if op = "+" then .ok ⟨stringTy, .str (x ++ y)⟩
  else if op = "==" then .ok ⟨boolTy, .bool (x = y)⟩
  else if op = "!=" then .ok ⟨boolTy, .bool (x ≠ y)⟩
  else if op = ">" then .ok ⟨boolTy, .bool (y < x)⟩
  else if op = "<" then .ok ⟨boolTy, .bool (x < y)⟩
  else if op = ">=" then .ok ⟨boolTy, .bool (¬x < y)⟩
  else if op = "<=" then .ok ⟨boolTy, .bool (¬y < x)⟩
  else .error .crash

/-- The boolean-operator lambdas. -/
def applyBoolOp (op : String) (a b : Value) : ExecRes Value := do
  let x ← a.boolValOr
  let y ← b.boolValOr
  if op = "&" then .ok ⟨boolTy, .bool (x && y)⟩
  else if op = "|" then .ok ⟨boolTy, .bool (x || y)⟩
  else if op = "==" then .ok ⟨boolTy, .bool (x = y)⟩
  else if op = "!=" then .ok ⟨boolTy, .bool (x ≠ y)⟩
  else .error .crash

/-- The object-reference comparison lambdas: Python `==` on the payloads
(`None` equals `None`; object references compare by identity).  Any other
operator on compatible reference types is a `KeyError` in the source, hence a
crash. -/
def applyClassOp (op : String) (a b : Value) : ExecRes Value :=
  if op = "==" then .ok ⟨boolTy, .bool (a.val = b.val)⟩
  else if op = "!=" then .ok ⟨boolTy, .bool (a.val ≠ b.val)⟩
  else .error .crash

/-- The unary boolean lambda `!`: Python `not a.value()`. -/
def applyUnaryBoolOp (op : String) (a : Value) : ExecRes Value :=
  if op = "!" then .ok ⟨boolTy, .bool (!a.val.truthy)⟩
  else .error .crash

/-! ## Parameter compatibility and the dispatch scan -/

/-- `ObjectDef.__compatible_param_types`: each formal type must be compatible
(for assignment) with the corresponding actual argument's runtime type,
checked left to right with short-circuiting; reading the type of an absent
actual is a crash in the source. -/
def compatibleParamTypes (tm : TypeManager) :
    List VariableDef → List (Option Value) → ExecRes Bool
  | [], _ => .ok true
  | _ :: _, [] => .ok true
  | formal :: formals, actual :: actuals =>
    match actual with
    | none => .error .crash
    | some av =>
      if tm.checkTypeCompatibility formal.type av.typ true then
        compatibleParamTypes tm formals actuals
      else .ok false

/-- `ObjectDef.__get_obj_with_method`, expressed on the suffix of the level
chain that starts at the search's start level: walk levels most-derived
first; skip a level whose method table lacks the name; at a level that has
the name, stop if the formal-parameter count equals the actual count and
every formal type is compatible with the actual's runtime type, otherwise
continue at the superpart.  Returns the index (relative to the given suffix)
of the level found. -/
def getObjWithMethodFrom (tm : TypeManager) (methodName : String)
    (actualParams : List (Option Value)) :
    List LevelState → ExecRes (Option Nat)
  | [] => .ok none
  | lvl :: rest =>
    match dictGet lvl.methods methodName with
    | none => do
      let r ← getObjWithMethodFrom tm methodName actualParams rest
      .ok (r.map (· + 1))
    | some md =>
      if actualParams.length = md.formalParams.length then do
        let c ← compatibleParamTypes tm md.formalParams actualParams
        if c then .ok (some 0)
        else do
          let r ← getObjWithMethodFrom tm methodName actualParams rest
          .ok (r.map (· + 1))
      else do
        let r ← getObjWithMethodFrom tm methodName actualParams rest
        .ok (r.map (· + 1))

/-! ## Assignment helpers -/

/-- `ObjectDef.__check_type_compatibility`: report a type error unless the
types are compatible. -/
def checkTypeCompatOrError (tm : TypeManager) (lvalueType rvalueType : Ty)
    (forAssignment : Bool) : ExecRes Unit :=
  if tm.checkTypeCompatibility lvalueType rvalueType forAssignment then .ok ()
  else .error (.hostError .typeError)

/-- `ObjectDef.__set_local_or_param`. -/
def setLocalOrParam (tm : TypeManager) (env : Env) (varName : String)
    (value : Value) : ExecRes (Bool × Env) :=
  match env.get varName with
  | none => .ok (false, env)
  | some vd => do
    checkTypeCompatOrError tm vd.type value.typ true
    .ok (true, (env.set varName (vd.setValue value)).2)

/-- `ObjectDef.__set_field`: fields of the level the executing method was
resolved at. -/
def setField (tm : TypeManager) (st : ExecState) (selfRef : ObjRef)
    (fieldName : String) (value : Value) : ExecRes (Bool × ExecState) :=
  match heapLevelOf st selfRef with
  | none => .error .crash
  | some lvl =>
    match dictGet lvl.fields fieldName with
    | none => .ok (false, st)
    | some vd => do
      checkTypeCompatOrError tm vd.type value.typ true
      .ok (true, heapSetField st selfRef fieldName (vd.setValue value))

/-- `ObjectDef.__set_variable_aux`: silently ignore an absent value; then
parameters/locals shadow fields; an unknown name is a name error. -/
def setVariableAux (st : ExecState) (selfRef : ObjRef) (env : Env)
    (varName : String) (value : Option Value) : ExecRes (Env × ExecState) :=
  match value with
  | none => .ok (env, st)
  | some v => do
    let (doneLocal, env') ← setLocalOrParam st.typeManager env varName v
    if doneLocal then .ok (env', st)
    else do
      let (doneField, st') ← setField st.typeManager st selfRef varName v
      if doneField then .ok (env, st')
      else .error (.hostError .nameError)

/-- `ObjectDef.get_me_as_value`: the anchor level's dynamic type and the
anchor reference. -/
def getMeAsValue (st : ExecState) (selfRef : ObjRef) : ExecRes Value :=
  match heapLevelOf st ⟨selfRef.chain, 0⟩ with
  | none => .error .crash
  | some anchorLvl => .ok ⟨⟨anchorLvl.classDef.name⟩, .obj selfRef.chain⟩

/-- Binding of actual arguments to formal parameters in the fresh
method-local scope frame (the loop in `call_method`): an absent actual makes
the whole call return `(PROCEED, None)`; a duplicate formal name is a name
error. -/
inductive BindOut where
  | earlyProceed
  | bound (env : Env)

def bindFormals (env : Env) :
    List VariableDef → List (Option Value) → ExecRes BindOut
  | [], _ => .ok (.bound env)
  | _ :: _, [] => .ok (.bound env)
  | formal :: formals, actual :: actuals =>
    match actual with
    | none => .ok .earlyProceed
    | some av =>
      let formalCopy := formal.setValue av
      match env.createNewSymbol formalCopy.name with
      | (false, _) => .error (.hostError .nameError)
      | (true, env1) =>
        bindFormals (env1.set formalCopy.name formalCopy).2 formals actuals

/-! ## Blueprint validation (`TemplateClassDef.__validate`) -/

mutual

def validateS (tm : TypeManager) (templatedTypes : List String) :
    SExpr → ExecRes Unit
  | .atom s =>
    let codeParts := splitParts s
    if codeParts.length > 1 then
      if (codeParts.drop 1).all
          (fun part => tm.isValidType part || part ∈ templatedTypes) then
        .ok ()
      else .error (.hostError .typeError)
    else .ok ()
  | .lst xs => validateL tm templatedTypes xs

def validateL (tm : TypeManager) (templatedTypes : List String) :
    List SExpr → ExecRes Unit
  | [] => .ok ()
  | x :: xs => do
    validateS tm templatedTypes x
    validateL tm templatedTypes xs

end

/-- `TemplateClassDef.__init__` (line numbers dropped). -/
def TemplateClassDef.ofSource (source : List SExpr) : TemplateClassDef :=
  { name := atomAt source 1
    templatedTypes :=
      match listAt source 2 with
      | .lst ps => ps.map SExpr.asAtom
      | .atom _ => []
    classSource := .lst source }

/-! ## The mutually recursive evaluator

All functions below take a fuel argument (first parameter) and recurse
structurally on it; running out of fuel is `Fault.outOfFuel`, never a result
the Python source could produce. -/

/-- Statement-execution output: the `(status, value)` pair, the (possibly
mutated) environment, and the mutated interpreter state. -/
abbrev StmtOut := StmtRes × Env × ExecState

/-- Expression-evaluation output: `(status, value)` plus the mutated state
(the caller's environment is never mutated by expression evaluation). -/
abbrev ExprOut := StmtRes × ExecState

/-- Outcome of evaluating a call's actual-argument list: either an exception
escaped from an argument, or the evaluated arguments. -/
inductive ArgsOut where
  | excRes (r : StmtRes) (st : ExecState)
  | args (vals : List (Option Value)) (st : ExecState)

mutual

/-- `ObjectDef.__execute_statement`: dispatch on the statement's head
token. -/
def executeStatement (fuel : Nat) (selfRef : ObjRef) (env : Env)
    (returnType : Ty) (code : SExpr) (st : ExecState) : ExecRes StmtOut :=
  match fuel with
  | 0 => .error .outOfFuel
  | f + 1 =>
    match code with
    | .lst (.atom tok :: rest) =>
      let items := SExpr.atom tok :: rest
      if tok = beginDef then executeBegin f selfRef env returnType items false st
      else if tok = setDef then executeSet f selfRef env items st
      else if tok = ifDef then executeIf f selfRef env returnType items st
      else if tok = callDef then do
        let (r, st1) ← executeCallAux f selfRef env items st
        .ok (r, env, st1)
      else if tok = whileDef then
        executeWhile f selfRef env returnType items st
      else if tok = returnDef then
        executeReturn f selfRef env returnType items st
      else if tok = throwDef then executeThrow f selfRef env items st
      else if tok = tryDef then executeTry f selfRef env returnType items st
      else if tok = inputStringDef then executeInput f selfRef env items true st
      else if tok = inputIntDef then executeInput f selfRef env items false st
      else if tok = printDef then executePrint f selfRef env items st
      else if tok = letDef then executeBegin f selfRef env returnType items true st
      else .error (.hostError .synError)
    | .lst _ => .error .crash
    | .atom _ => .error (.hostError .synError)

/-- `ObjectDef.__execute_begin`, used for both `begin` (no variable
definitions) and `let` (push a scope, add locals, pop the scope at exit). -/
def executeBegin (fuel : Nat) (selfRef : ObjRef) (env : Env) (returnType : Ty)
    (items : List SExpr) (hasVardef : Bool) (st : ExecState) :
    ExecRes StmtOut :=
  match fuel with
  | 0 => .error .outOfFuel
  | f + 1 =>
    if hasVardef then do
      let env1 := env.blockNest
      let varDefs ←
        match listAt items 1 with
        | .lst vs => Except.ok vs
        | .atom _ => .error Fault.crash
      let (env2, st1) ← addLocalsToEnv f env1 varDefs st
      let (r, env3, st2) ←
        executeStatementList f selfRef env2 returnType (items.drop 2)
          (.proceed, none) st1
      .ok (r, env3.blockUnnest, st2)
    else
      executeStatementList f selfRef env returnType (items.drop 1)
        (.proceed, none) st

/-- The statement loop of `__execute_begin`: run children in order,
short-circuiting on a RETURN or EXCEPTION status. -/
def executeStatementList (fuel : Nat) (selfRef : ObjRef) (env : Env)
    (returnType : Ty) (stmts : List SExpr) (prev : StmtRes) (st : ExecState) :
    ExecRes StmtOut :=
  match fuel with
  | 0 => .error .outOfFuel
  | f + 1 =>
    match stmts with
    | [] => .ok (prev, env, st)
    | s :: rest => do
      let (r, env1, st1) ← executeStatement f selfRef env returnType s st
      if r.1 = .ret || r.1 = .exc then .ok (r, env1, st1)
      else executeStatementList f selfRef env1 returnType rest r st1

/-- `ObjectDef.__add_locals_to_env`: declare each `let` local, lazily
instantiating a generic local type that is not yet in the class index; a
local whose default value cannot be created silently stops the whole
declaration loop (the early `return` in the source). -/
def addLocalsToEnv (fuel : Nat) (env : Env) (varDefs : List SExpr)
    (st : ExecState) : ExecRes (Env × ExecState) :=
  match fuel with
  | 0 => .error .outOfFuel
  | f + 1 =>
    match varDefs with
    | [] => .ok (env, st)
    | varDef :: rest => do
      let vdItems ←
        match varDef with
        | .lst vs => Except.ok vs
        | .atom _ => .error Fault.crash
      let t ←
        match listAt vdItems 0 with
        | .atom t => Except.ok t
        | .lst _ => .error Fault.crash
      let st1 ←
        if !dictContains st.classIndex t then
          let varTypeParts := splitParts t
          if varTypeParts.length > 1 then
            match dictGet st.templateIndex (varTypeParts.headD "") with
            | none => .error Fault.crash
            | some tdef => do
              let (cd, st') ←
                instantiateClass f tdef (varTypeParts.drop 1) st
              let st'' :=
                { st' with classIndex := dictInsert st'.classIndex t (some cd) }
              Except.ok
                { st'' with
                    typeManager := st''.typeManager.addClassType t none }
          else Except.ok st
        else Except.ok st
      let varType : Ty := ⟨t⟩
      let varName ←
        match listAt vdItems 1 with
        | .atom n => Except.ok n
        | .lst _ => .error Fault.crash
      let defaultValue : Option Value :=
        if vdItems.length < 3 then createDefaultValue varType
        else
          match listAt vdItems 2 with
          | .atom tok => createValue tok
          | .lst _ => none
      match defaultValue with
      | none => .ok (env, st1)
      | some dv => do
        checkTypeCompatOrError st1.typeManager varType dv.typ true
        match env.createNewSymbol varName with
        | (false, _) => .error (.hostError .nameError)
        | (true, env1) =>
          let newVd : VariableDef := ⟨varType, varName, some dv⟩
          addLocalsToEnv f (env1.set varName newVd).2 rest st1

/-- `ObjectDef.__execute_set`. -/
def executeSet (fuel : Nat) (selfRef : ObjRef) (env : Env)
    (items : List SExpr) (st : ExecState) : ExecRes StmtOut :=
  match fuel with
  | 0 => .error .outOfFuel
  | f + 1 => do
    let ((s, v), st1) ← evaluateExpression f selfRef env (listAt items 2) st
    if s = .exc then .ok ((s, v), env, st1)
    else do
      let varName ←
        match listAt items 1 with
        | .atom n => Except.ok n
        | .lst _ => .error Fault.crash
      let (env1, st2) ← setVariableAux st1 selfRef env varName v
      .ok ((.proceed, none), env1, st2)

/-- `ObjectDef.__execute_return`: a bare `return` carries no value; a
returned typeless null is stamped with the declared return type; the final
value must be compatible with the declared return type. -/
def executeReturn (fuel : Nat) (selfRef : ObjRef) (env : Env)
    (returnType : Ty) (items : List SExpr) (st : ExecState) :
    ExecRes StmtOut :=
  match fuel with
  | 0 => .error .outOfFuel
  | f + 1 =>
    if items.length = 1 then .ok ((.ret, none), env, st)
    else do
      let ((s, result), st1) ←
        evaluateExpression f selfRef env (listAt items 1) st
      if s = .exc then .ok ((s, result), env, st1)
      else do
        let result1 ←
          match result with
          | some r =>
            if r.isTypelessNull then do
              checkTypeCompatOrError st1.typeManager returnType r.typ true
              Except.ok (some (Value.mk returnType .null))
            else Except.ok (some r)
          | none => Except.ok (none : Option Value)
        match result1 with
        | none => .error Fault.crash
        | some r1 => do
          checkTypeCompatOrError st1.typeManager returnType r1.typ true
          .ok ((.ret, some r1), env, st1)

/-- `ObjectDef.__execute_try`: run the protected block; only an EXCEPTION
status triggers the catch block, inside a fresh scope frame binding the
reserved exception variable to the thrown value. -/
def executeTry (fuel : Nat) (selfRef : ObjRef) (env : Env) (returnType : Ty)
    (items : List SExpr) (st : ExecState) : ExecRes StmtOut :=
  match fuel with
  | 0 => .error .outOfFuel
  | f + 1 => do
    let (r, env1, st1) ←
      executeStatement f selfRef env returnType (listAt items 1) st
    if r.1 = .exc then do
      let env2 := env1.blockNest
      let env3 := (env2.createNewSymbol exceptionVariableDef).2
      let env4 :=
        (env3.set exceptionVariableDef
          ⟨stringTy, exceptionVariableDef, r.2⟩).2
      let (r2, env5, st2) ←
        executeStatement f selfRef env4 returnType (listAt items 2) st1
      .ok (r2, env5.blockUnnest, st2)
    else .ok (r, env1, st1)

/-- `ObjectDef.__execute_throw`: the operand must evaluate to a string-typed
value, which becomes the EXCEPTION payload. -/
def executeThrow (fuel : Nat) (selfRef : ObjRef) (env : Env)
    (items : List SExpr) (st : ExecState) : ExecRes StmtOut :=
  match fuel with
  | 0 => .error .outOfFuel
  | f + 1 => do
    let ((s, result), st1) ←
      evaluateExpression f selfRef env (listAt items 1) st
    if s = .exc then .ok ((s, result), env, st1)
    else
      match result with
      | none => .error (.hostError .typeError)
      | some r =>
        if r.typ.typeName ≠ stringDef then .error (.hostError .typeError)
        else .ok ((.exc, some r), env, st1)

/-- `ObjectDef.__execute_print`: evaluate and render each operand, then emit
the concatenation as one output line. -/
def executePrint (fuel : Nat) (selfRef : ObjRef) (env : Env)
    (items : List SExpr) (st : ExecState) : ExecRes StmtOut :=
  match fuel with
  | 0 => .error .outOfFuel
  | f + 1 => executePrintList f selfRef env (items.drop 1) "" st

/-- The operand loop of `__execute_print`. -/
def executePrintList (fuel : Nat) (selfRef : ObjRef) (env : Env)
    (exprs : List SExpr) (acc : String) (st : ExecState) : ExecRes StmtOut :=
  match fuel with
  | 0 => .error .outOfFuel
  | f + 1 =>
    match exprs with
    | [] =>
      .ok ((.proceed, none), env, { st with output := st.output ++ [acc] })
    | e :: rest => do
      let ((s, term), st1) ← evaluateExpression f selfRef env e st
      if s = .exc then .ok ((s, term), env, st1)
      else
        match term with
        | none => .error (.hostError .typeError)
        | some v =>
          executePrintList f selfRef env rest (acc ++ renderValue v) st1

/-- `ObjectDef.__execute_input`: blocking read from the host input source,
assigned via the same resolution order as `set`. -/
def executeInput (fuel : Nat) (selfRef : ObjRef) (env : Env)
    (items : List SExpr) (getString : Bool) (st : ExecState) :
    ExecRes StmtOut :=
  match fuel with
  | 0 => .error .outOfFuel
  | _ + 1 =>
    match st.inputs with
    | [] => .error .crash
    | inp :: restInput => do
      let st1 := { st with inputs := restInput }
      let val : Value ←
        if getString then Except.ok (Value.mk stringTy (.str inp))
        else
          match parseIntToken inp with
          | some i => Except.ok (Value.mk intTy (.int i))
          | none => .error Fault.crash
      let varName ←
        match listAt items 1 with
        | .atom n => Except.ok n
        | .lst _ => .error Fault.crash
      let (env1, st2) ← setVariableAux st1 selfRef env varName (some val)
      .ok ((.proceed, none), env1, st2)

/-- `ObjectDef.__execute_if`: boolean condition, then/else branches. -/
def executeIf (fuel : Nat) (selfRef : ObjRef) (env : Env) (returnType : Ty)
    (items : List SExpr) (st : ExecState) : ExecRes StmtOut :=
  match fuel with
  | 0 => .error .outOfFuel
  | f + 1 => do
    let ((s, condition), st1) ←
      evaluateExpression f selfRef env (listAt items 1) st
    if s = .exc then .ok ((s, condition), env, st1)
    else
      match condition with
      | none => .error (.hostError .typeError)
      | some c =>
        if c.typ ≠ boolTy then .error (.hostError .typeError)
        else if c.val.truthy then
          executeStatement f selfRef env returnType (listAt items 2) st1
        else if items.length = 4 then
          executeStatement f selfRef env returnType (listAt items 3) st1
        else .ok ((.proceed, none), env, st1)

/-- `ObjectDef.__execute_while`: re-evaluate the boolean condition before
each iteration; a RETURN or EXCEPTION status from the body exits the loop. -/
def executeWhile (fuel : Nat) (selfRef : ObjRef) (env : Env) (returnType : Ty)
    (items : List SExpr) (st : ExecState) : ExecRes StmtOut :=
  match fuel with
  | 0 => .error .outOfFuel
  | f + 1 => do
    let ((s, condition), st1) ←
      evaluateExpression f selfRef env (listAt items 1) st
    if s = .exc then .ok ((s, condition), env, st1)
    else
      match condition with
      | none => .error (.hostError .typeError)
      | some c =>
        if c.typ ≠ boolTy then .error (.hostError .typeError)
        else if !c.val.truthy then .ok ((.proceed, none), env, st1)
        else do
          let (r, env1, st2) ←
            executeStatement f selfRef env returnType (listAt items 2) st1
          if r.1 = .exc || r.1 = .ret then .ok (r, env1, st2)
          else executeWhile f selfRef env1 returnType items st2

/-- `ObjectDef.__evaluate_expression`: literal tokens, identifier lookup
(locals shadow fields, then literal constants, then `me`), operators, call
and new expressions, and the silent fall-through for unrecognized heads. -/
def evaluateExpression (fuel : Nat) (selfRef : ObjRef) (env : Env)
    (expr : SExpr) (st : ExecState) : ExecRes ExprOut :=
  match fuel with
  | 0 => .error .outOfFuel
  | f + 1 =>
    match expr with
    | .atom s =>
      match env.get s with
      | some vd => .ok ((.proceed, some (propagateTypeToNull vd)), st)
      | none =>
        match heapLevelOf st selfRef with
        | none => .error .crash
        | some lvl =>
          match dictGet lvl.fields s with
          | some vd => .ok ((.proceed, some (propagateTypeToNull vd)), st)
          | none =>
            match createValue s with
            | some v => .ok ((.proceed, some v), st)
            | none =>
              if s = meDef then do
                let me ← getMeAsValue st selfRef
                .ok ((.proceed, some me), st)
              else .error (.hostError .nameError)
    | .lst items =>
      let operator := (listAt items 0).asAtom
      if operator ∈ binaryOpList then do
        let ((s1, operand1), st1) ←
          evaluateExpression f selfRef env (listAt items 1) st
        if s1 = .exc then .ok ((s1, operand1), st1)
        else do
          let ((s2, operand2), st2) ←
            evaluateExpression f selfRef env (listAt items 2) st1
          if s2 = .exc then .ok ((s2, operand2), st2)
          else
            match operand1, operand2 with
            | none, _ => .error (.hostError .typeError)
            | _, none => .error (.hostError .typeError)
            | some o1, some o2 =>
              if o1.typ = o2.typ ∧ o1.typ = intTy then
                if operator ∉ intOpNames then .error (.hostError .typeError)
                else do
                  let v ← applyIntOp operator o1 o2
                  .ok ((.proceed, some v), st2)
              else if o1.typ = o2.typ ∧ o1.typ = stringTy then
                if operator ∉ stringOpNames then .error (.hostError .typeError)
                else do
                  let v ← applyStringOp operator o1 o2
                  .ok ((.proceed, some v), st2)
              else if o1.typ = o2.typ ∧ o1.typ = boolTy then
                if operator ∉ boolOpNames then .error (.hostError .typeError)
                else do
                  let v ← applyBoolOp operator o1 o2
                  .ok ((.proceed, some v), st2)
              else if st2.typeManager.checkTypeCompatibility o1.typ o2.typ
                  false then do
                let v ← applyClassOp operator o1 o2
                .ok ((.proceed, some v), st2)
              else .error (.hostError .typeError)
      else if operator ∈ unaryOpList then do
        let ((s, operand), st1) ←
          evaluateExpression f selfRef env (listAt items 1) st
        if s = .exc then .ok ((s, operand), st1)
        else
          match operand with
          | none => .error (.hostError .typeError)
          | some o =>
            if o.typ = boolTy then
              if operator ∉ unaryOpList then .error (.hostError .typeError)
              else do
                let v ← applyUnaryBoolOp operator o
                .ok ((.proceed, some v), st1)
            else
              evaluateTail f selfRef env operator items st1
      else evaluateTail f selfRef env operator items st

/-- The tail of `__evaluate_expression` after the operator branches: a
`call` expression, a `new` expression, or the silent `(PROCEED, None)`
fall-through for any other head. -/
def evaluateTail (fuel : Nat) (selfRef : ObjRef) (env : Env)
    (operator : String) (items : List SExpr) (st : ExecState) :
    ExecRes ExprOut :=
  match fuel with
  | 0 => .error .outOfFuel
  | f + 1 =>
    if operator = callDef then executeCallAux f selfRef env items st
    else if operator = newDef then do
      let (v, st1) ← executeNewAux f env items st
      .ok ((.proceed, some v), st1)
    else .ok ((.proceed, none), st)

/-- `ObjectDef.__execute_new_aux`. -/
def executeNewAux (fuel : Nat) (_env : Env) (items : List SExpr)
    (st : ExecState) : ExecRes (Value × ExecState) :=
  match fuel with
  | 0 => .error .outOfFuel
  | f + 1 => do
    let className ←
      match listAt items 1 with
      | .atom n => Except.ok n
      | .lst _ => .error Fault.crash
    let (ref, st1) ← instantiate f className st
    .ok (⟨⟨className⟩, .obj ref.chain⟩, st1)

/-- `ObjectDef.__execute_call_aux`: resolve the receiver (`me`, `super`, or
an evaluated object expression), evaluate the actual arguments, and perform
the call. -/
def executeCallAux (fuel : Nat) (selfRef : ObjRef) (env : Env)
    (items : List SExpr) (st : ExecState) : ExecRes ExprOut :=
  match fuel with
  | 0 => .error .outOfFuel
  | f + 1 =>
    let objName := listAt items 1
    if objName = SExpr.atom meDef then
      executeCallOn f selfRef env selfRef false items st
    else if objName = SExpr.atom superDef then
      match heapChainOf st selfRef.chain with
      | none => .error .crash
      | some levels =>
        if selfRef.level + 1 < levels.length then
          executeCallOn f selfRef env ⟨selfRef.chain, selfRef.level + 1⟩ true
            items st
        else .error (.hostError .typeError)
    else do
      let ((s, objVal), st1) ← evaluateExpression f selfRef env objName st
      if s = .exc then .ok ((s, objVal), st1)
      else
        match objVal with
        | none => .ok ((.proceed, none), st1)
        | some ov =>
          if ov.isNull then .error (.hostError .faultError)
          else
            match ov.val with
            | .obj chainId =>
              executeCallOn f selfRef env ⟨chainId, 0⟩ false items st1
            | _ => .error .crash

/-- The shared continuation of `__execute_call_aux`: evaluate the actual
arguments (an exception escaping an argument aborts the call), then invoke
`call_method` on the resolved receiver. -/
def executeCallOn (fuel : Nat) (selfRef : ObjRef) (env : Env) (obj : ObjRef)
    (superOnly : Bool) (items : List SExpr) (st : ExecState) :
    ExecRes ExprOut :=
  match fuel with
  | 0 => .error .outOfFuel
  | f + 1 => do
    let methodName ←
      match listAt items 2 with
      | .atom m => Except.ok m
      | .lst _ => .error Fault.crash
    let argsOut ← evaluateArgs f selfRef env (items.drop 3) [] st
    match argsOut with
    | .excRes r st1 => .ok (r, st1)
    | .args vals st1 => callMethod f obj methodName vals superOnly st1

/-- The actual-argument loop of `__execute_call_aux`. -/
def evaluateArgs (fuel : Nat) (selfRef : ObjRef) (env : Env)
    (exprs : List SExpr) (acc : List (Option Value)) (st : ExecState) :
    ExecRes ArgsOut :=
  match fuel with
  | 0 => .error .outOfFuel
  | f + 1 =>
    match exprs with
    | [] => .ok (.args acc st)
    | e :: rest => do
      let ((s, arg), st1) ← evaluateExpression f selfRef env e st
      if s = .exc then .ok (.excRes (s, arg) st1)
      else evaluateArgs f selfRef env rest (acc ++ [arg]) st1

/-- `ObjectDef.call_method`: check that some level starting at the called
object knows the method (else a name error); then search from the anchor
(or from the called object itself for a `super` call) for the most-derived
level with a matching method, and run its body. -/
def callMethod (fuel : Nat) (selfRef : ObjRef) (methodName : String)
    (actualParams : List (Option Value)) (superOnly : Bool) (st : ExecState) :
    ExecRes ExprOut :=
  match fuel with
  | 0 => .error .outOfFuel
  | f + 1 =>
    match heapChainOf st selfRef.chain with
    | none => .error .crash
    | some levels => do
      let r1 ←
        getObjWithMethodFrom st.typeManager methodName actualParams
          (levels.drop selfRef.level)
      if r1 = none then .error (.hostError .nameError)
      else do
        let anchorLevel := if superOnly then selfRef.level else 0
        let r2 ←
          getObjWithMethodFrom st.typeManager methodName actualParams
            (levels.drop anchorLevel)
        match r2 with
        | none => .ok ((.proceed, none), st)
        | some rel =>
          let k := anchorLevel + rel
          match levels[k]? with
          | none => .error .crash
          | some lvl =>
            match dictGet lvl.methods methodName with
            | none => .error .crash
            | some md => invokeMethodAt f selfRef.chain k md actualParams st

/-- The tail of `call_method` once the level to call on is fixed: bind the
actuals in a fresh method-local scope, run the single top-level body
statement, and translate the resulting status at the call boundary (RETURN
with a value passes the value; EXCEPTION propagates; anything else yields
the declared return type's default value). -/
def invokeMethodAt (fuel : Nat) (chainId : Nat) (levelIdx : Nat)
    (md : MethodDef) (actualParams : List (Option Value)) (st : ExecState) :
    ExecRes ExprOut :=
  match fuel with
  | 0 => .error .outOfFuel
  | f + 1 => do
    let b ← bindFormals Env.empty md.formalParams actualParams
    match b with
    | .earlyProceed => .ok ((.proceed, none), st)
    | .bound env => do
      let (r, _, st1) ←
        executeStatement f ⟨chainId, levelIdx⟩ env md.returnType md.code st
      match r with
      | (.ret, some v) => .ok ((.proceed, some v), st1)
      | (.exc, v) => .ok ((.exc, v), st1)
      | _ => .ok ((.proceed, createDefaultValue md.returnType), st1)

/-- `Interpreter.instantiate`: look up the class (lazily instantiating a
generic class when the name is compound and its base names a blueprint; an
unknown base is a type error), then build the runtime level chain on the
heap. -/
def instantiate (fuel : Nat) (className : String) (st : ExecState) :
    ExecRes (ObjRef × ExecState) :=
  match fuel with
  | 0 => .error .outOfFuel
  | f + 1 => do
    let st1 ←
      if !dictContains st.classIndex className then
        let classParts := splitParts className
        match dictGet st.templateIndex (classParts.headD "") with
        | none => .error (.hostError .typeError)
        | some tdef =>
          if (classParts.drop 1).all
              (fun p => st.typeManager.isValidType p || p ∈ primitiveTypes)
          then do
            let st' :=
              { st with
                  typeManager := st.typeManager.addClassType className none }
            let (cd, st'') ← instantiateClass f tdef (classParts.drop 1) st'
            Except.ok
              { st'' with
                  classIndex := dictInsert st''.classIndex className (some cd) }
          else .error (.hostError .typeError)
      else Except.ok st
    match dictGet st1.classIndex className with
    | some (some cd) =>
      let chain := buildChain cd
      .ok (⟨st1.heap.length, 0⟩, { st1 with heap := st1.heap ++ [chain] })
    | _ => .error .crash

/-- `TemplateClassDef.instantiate_class`: check the argument count, rename
the class to the mangled name, substitute every template-parameter
occurrence, and construct a `ClassDef` from the result. -/
def instantiateClass (fuel : Nat) (tdef : TemplateClassDef)
    (actualTypes : List String) (st : ExecState) :
    ExecRes (ClassDef × ExecState) :=
  match fuel with
  | 0 => .error .outOfFuel
  | f + 1 =>
    if tdef.templatedTypes.length ≠ actualTypes.length then
      .error (.hostError .typeError)
    else
      let templateToActual :=
        (tdef.templatedTypes.zip actualTypes).foldl
          (fun m p => dictInsert m p.1 p.2) []
      match tdef.classSource with
      | .atom _ => .error .crash
      | .lst source =>
        let name1 := atomAt source 1 ++ "@" ++ joinParts actualTypes
        let source1 :=
          ((source.set 0 (.atom classDef)).set 1 (.atom name1)).eraseIdx 2
        buildClassDef f (replaceS templateToActual (.lst source1)) st

/-- `ClassDef.__init__`: resolve the inheritance linkage, then build the
field list and the method list, validating each against the session
registries. -/
def buildClassDef (fuel : Nat) (source : SExpr) (st : ExecState) :
    ExecRes (ClassDef × ExecState) :=
  match fuel with
  | 0 => .error .outOfFuel
  | f + 1 =>
    match source with
    | .atom _ => .error .crash
    | .lst items =>
      if items.length < 3 then .error .crash
      else do
        let name := atomAt items 1
        let (superClass, startIdx) ←
          if atomAt items 2 ≠ inheritsDef then
            Except.ok ((none : Option ClassDef), 2)
          else do
            let superName ←
              match listAt items 3 with
              | .atom n => Except.ok n
              | .lst _ => .error Fault.crash
            match dictGet st.classIndex superName with
            | none => .error (.hostError .typeError)
            | some cdOpt => Except.ok (cdOpt, 4)
        let members := items.drop startIdx
        let (fields, st1) ← buildFields f members [] [] st
        let (methods, st2) ← buildMethods f members [] [] st1
        .ok (ClassDef.mk name fields methods superClass, st2)

/-- The field loop of `ClassDef.__create_field_list` (duplicate field names
are a name error). -/
def buildFields (fuel : Nat) (members : List SExpr) (seen : List String)
    (acc : List VariableDef) (st : ExecState) :
    ExecRes (List VariableDef × ExecState) :=
  match fuel with
  | 0 => .error .outOfFuel
  | f + 1 =>
    match members with
    | [] => .ok (acc, st)
    | m :: rest =>
      match m with
      | .atom _ => buildFields f rest seen acc st
      | .lst mItems =>
        if atomAt mItems 0 = fieldDef then do
          let fname := atomAt mItems 2
          if fname ∈ seen then .error (.hostError .nameError)
          else do
            let (vd, st1) ← createVariableDefFromField f mItems st
            buildFields f rest (fname :: seen) (acc ++ [vd]) st1
        else buildFields f rest seen acc st

/-- `ClassDef.__create_variable_def_from_field`: resolve a compound (generic)
field type, then build the `VariableDef` with its default or declared
initial value, which must be compatible with the field's type. -/
def createVariableDefFromField (fuel : Nat) (mItems : List SExpr)
    (st : ExecState) : ExecRes (VariableDef × ExecState) :=
  match fuel with
  | 0 => .error .outOfFuel
  | f + 1 => do
    let ft ←
      match listAt mItems 1 with
      | .atom t => Except.ok t
      | .lst _ => .error Fault.crash
    let st1 ← resolveTemplateType f ft st
    let vd : VariableDef :=
      if mItems.length < 4 then
        ⟨⟨ft⟩, atomAt mItems 2, createDefaultValue ⟨ft⟩⟩
      else
        ⟨⟨ft⟩, atomAt mItems 2,
          match listAt mItems 3 with
          | .atom tok => createValue tok
          | .lst _ => none⟩
    match vd.value with
    | some v =>
      if !st1.typeManager.checkTypeCompatibility vd.type v.typ true then
        .error (.hostError .typeError)
      else .ok (vd, st1)
    | none => .ok (vd, st1)

/-- The method loop of `ClassDef.__create_method_list` (duplicate method
names are a name error). -/
def buildMethods (fuel : Nat) (members : List SExpr) (seen : List String)
    (acc : List MethodDef) (st : ExecState) :
    ExecRes (List MethodDef × ExecState) :=
  match fuel with
  | 0 => .error .outOfFuel
  | f + 1 =>
    match members with
    | [] => .ok (acc, st)
    | m :: rest =>
      match m with
      | .atom _ => buildMethods f rest seen acc st
      | .lst mItems =>
        if atomAt mItems 0 = methodDef then do
          let md := MethodDef.ofSource mItems
          if md.methodName ∈ seen then .error (.hostError .nameError)
          else do
            let st1 ← checkMethodNamesAndTypes f md st
            buildMethods f rest (md.methodName :: seen) (acc ++ [md]) st1
        else buildMethods f rest seen acc st

/-- `ClassDef.__check_method_names_and_types`: resolve and validate the
return type, then each parameter type. -/
def checkMethodNamesAndTypes (fuel : Nat) (md : MethodDef) (st : ExecState) :
    ExecRes ExecState :=
  match fuel with
  | 0 => .error .outOfFuel
  | f + 1 => do
    let st1 ← resolveTemplateType f md.returnType.typeName st
    if !st1.typeManager.isValidType md.returnType.typeName ∧
        md.returnType ≠ nothingTy then
      .error (.hostError .typeError)
    else checkParamTypes f md.formalParams st1

/-- The parameter loop of `__check_method_names_and_types`. -/
def checkParamTypes (fuel : Nat) (params : List VariableDef)
    (st : ExecState) : ExecRes ExecState :=
  match fuel with
  | 0 => .error .outOfFuel
  | f + 1 =>
    match params with
    | [] => .ok st
    | p :: rest => do
      let st1 ← resolveTemplateType f p.type.typeName st
      if !st1.typeManager.isValidType p.type.typeName then
        .error (.hostError .typeError)
      else checkParamTypes f rest st1

/-- The shared compound-type resolution step of `ClassDef` construction
(fields, return types, parameter types): when the type token is compound,
its base must name a blueprint; if the mangled name is not yet registered it
is added to the class index as a placeholder (and to the type registry)
*before* the blueprint is instantiated, and the resulting class is then
stored under the mangled name. -/
def resolveTemplateType (fuel : Nat) (typeStr : String) (st : ExecState) :
    ExecRes ExecState :=
  match fuel with
  | 0 => .error .outOfFuel
  | f + 1 =>
    let typeParts := splitParts typeStr
    if typeParts.length > 1 then
      match dictGet st.templateIndex (typeParts.headD "") with
      | none => .error (.hostError .typeError)
      | some tdef =>
        if dictContains st.classIndex typeStr then .ok st
        else do
          let stP :=
            { st with classIndex := dictInsert st.classIndex typeStr none }
          let stP2 :=
            { stP with
                typeManager := stP.typeManager.addClassType typeStr none }
          let (cd, st3) ← instantiateClass f tdef (typeParts.drop 1) stP2
          Except.ok
            { st3 with
                classIndex := dictInsert st3.classIndex typeStr (some cd) }
    else .ok st

/-- The class-registration loop of
`Interpreter.__map_class_names_to_class_defs`: a duplicate class or
blueprint name is a type error; blueprints are validated at definition
time. -/
def mapClassNames (fuel : Nat) (program : List SExpr) (st : ExecState) :
    ExecRes ExecState :=
  match fuel with
  | 0 => .error .outOfFuel
  | f + 1 =>
    match program with
    | [] => .ok st
    | item :: rest =>
      match item with
      | .atom _ => mapClassNames f rest st
      | .lst iItems =>
        if atomAt iItems 0 = classDef then do
          let nm := atomAt iItems 1
          if dictContains st.classIndex nm ||
              dictContains st.templateIndex nm then
            .error (.hostError .typeError)
          else do
            let (cd, st1) ← buildClassDef f item st
            mapClassNames f rest
              { st1 with classIndex := dictInsert st1.classIndex nm (some cd) }
        else if atomAt iItems 0 = templateClassDef then do
          let nm := atomAt iItems 1
          if dictContains st.classIndex nm ||
              dictContains st.templateIndex nm then
            .error (.hostError .typeError)
          else do
            let tdef := TemplateClassDef.ofSource iItems
            validateS st.typeManager tdef.templatedTypes tdef.classSource
            mapClassNames f rest
              { st with
                  templateIndex := dictInsert st.templateIndex nm tdef }
        else mapClassNames f rest st

end

/-- `Interpreter.__add_all_class_types_to_type_manager`: register every
declared (non-template) class name with its optional superclass name. -/
def addAllClassTypes (program : List SExpr) : TypeManager :=
  program.foldl
    (fun tm item =>
      match item with
      | .lst iItems =>
        if atomAt iItems 0 = classDef then
          tm.addClassType (atomAt iItems 1)
            (if atomAt iItems 2 = inheritsDef then some (atomAt iItems 3)
             else none)
        else tm
      | .atom _ => tm)
    TypeManager.empty

/-- `Interpreter.run` on an already-parsed program: register class types,
build the class and blueprint registries, instantiate the entry class, and
invoke the entry method with no arguments.  The model also exposes the entry
call's `(status, value)` result, which the source discards. -/
def runProgram (fuel : Nat) (program : List SExpr) (inputs : List String) :
    ExecRes (StmtRes × ExecState) := do
  let st1 :=
    { ExecState.init inputs with typeManager := addAllClassTypes program }
  let st2 ← mapClassNames fuel program st1
  let (mainRef, st3) ← instantiate fuel mainClassDef st2
  callMethod fuel mainRef mainFuncDef [] false st3

/-! ## Observation helpers

Projections of a run's outcome onto decidable-equality types, used to state
concrete facts about whole-program executions. -/

/-- The output lines of a completed run. -/
def runOutput (fuel : Nat) (program : List SExpr) (inputs : List String) :
    Option (List String) :=
  match runProgram fuel program inputs with
  | .ok r => some r.2.output
  | .error _ => none

/-- The `(status, value)` result of the entry call of a completed run. -/
def runResult (fuel : Nat) (program : List SExpr) (inputs : List String) :
    Option StmtRes :=
  match runProgram fuel program inputs with
  | .ok r => some r.1
  | .error _ => none

/-- The fault (host error kind, fuel exhaustion, or host crash) of an
aborted run. -/
def runFault (fuel : Nat) (program : List SExpr) (inputs : List String) :
    Option Fault :=
  match runProgram fuel program inputs with
  | .ok _ => none
  | .error e => some e

/-- Shorthand constructors for writing token trees. -/
def sa : String → SExpr := .atom

def sl : List SExpr → SExpr := .lst

/-! ## Specification-side dispatch definitions

These definitions follow the specification's words for method matching and
first-fit dispatch; they are compared against the implementation's scan
(`getObjWithMethodFrom`). -/

/-- Specification wording: each formal type must be compatible with the
corresponding actual argument's runtime type. -/
def paramTypesOk (tm : TypeManager) (formals : List VariableDef)
    (vals : List Value) : Bool :=
  (formals.zip vals).all
    (fun p => tm.checkTypeCompatibility p.1.type p.2.typ true)

/-- Specification wording: a method matches at a level if its name is known
there, its formal-parameter count equals the number of actual arguments, and
each formal type is compatible with the corresponding actual's runtime
type. -/
def methodMatchesSpec (tm : TypeManager) (methodName : String)
    (vals : List Value) (lvl : LevelState) : Bool :=
  match dictGet lvl.methods methodName with
  | none => false
  | some md =>
    vals.length = md.formalParams.length &&
      paramTypesOk tm md.formalParams vals

/-- Specification wording: the first level (most-derived first) containing a
matching method. -/
def firstMatchingLevel (tm : TypeManager) (methodName : String)
    (vals : List Value) : List LevelState → Option Nat
  | [] => none
  | lvl :: rest =>
    if methodMatchesSpec tm methodName vals lvl then some 0
    else (firstMatchingLevel tm methodName vals rest).map (· + 1)

/-- Whether the level at an index matches. -/
def matchAtIdx (tm : TypeManager) (methodName : String) (vals : List Value)
    (levels : List LevelState) (i : Nat) : Bool :=
  match levels[i]? with
  | some lvl => methodMatchesSpec tm methodName vals lvl
  | none => false

/-! ## Dispatch lemmas -/

/-- With every actual argument present, the implementation's short-circuit
compatibility check computes the specification's conjunction. -/
theorem compatibleParamTypes_map_some (tm : TypeManager) :
    ∀ (formals : List VariableDef) (vals : List Value),
      compatibleParamTypes tm formals (vals.map some) =
        .ok (paramTypesOk tm formals vals) := by
  intro formals
  induction formals with
  | nil => intro vals; simp [compatibleParamTypes, paramTypesOk]
  | cons formal rest ih =>
    intro vals
    cases vals with
    | nil => simp [compatibleParamTypes, paramTypesOk]
    | cons v vs =>
      simp only [List.map_cons, compatibleParamTypes]
      by_cases h : tm.checkTypeCompatibility formal.type v.typ true
      · simp [h, ih, paramTypesOk]
      · simp [h, paramTypesOk]

/-- Refinement: with every actual argument present, the implementation's
level scan returns exactly the specification's first matching level. -/
theorem getObjWithMethodFrom_eq_firstMatchingLevel (tm : TypeManager)
    (methodName : String) (vals : List Value) :
    ∀ levels : List LevelState,
      getObjWithMethodFrom tm methodName (vals.map some) levels =
        .ok (firstMatchingLevel tm methodName vals levels) := by
  intro levels
  induction levels with
  | nil => simp [getObjWithMethodFrom, firstMatchingLevel]
  | cons lvl rest ih =>
    cases hm : dictGet lvl.methods methodName with
    | none =>
      simp [getObjWithMethodFrom, firstMatchingLevel, methodMatchesSpec, hm,
        ih, Except.bind, bind]
    | some md =>
      by_cases hl : vals.length = md.formalParams.length
      · by_cases hc : paramTypesOk tm md.formalParams vals
        · simp [getObjWithMethodFrom, firstMatchingLevel, methodMatchesSpec,
            hm, List.length_map, hl, compatibleParamTypes_map_some, hc,
            Except.bind, bind]
        · simp [getObjWithMethodFrom, firstMatchingLevel, methodMatchesSpec,
            hm, List.length_map, hl, compatibleParamTypes_map_some, hc, ih,
            Except.bind, bind]
      · simp [getObjWithMethodFrom, firstMatchingLevel, methodMatchesSpec, hm,
          List.length_map, hl, ih, Except.bind, bind]

/-- The specification's first matching level is exactly the index that
matches while every more-derived index does not. -/
theorem firstMatchingLevel_some_iff (tm : TypeManager) (methodName : String)
    (vals : List Value) :
    ∀ (levels : List LevelState) (i : Nat),
      firstMatchingLevel tm methodName vals levels = some i ↔
        (matchAtIdx tm methodName vals levels i = true ∧
          ∀ j < i, matchAtIdx tm methodName vals levels j = false) := by
  intro levels
  induction levels with
  | nil =>
    intro i
    simp [firstMatchingLevel, matchAtIdx]
  | cons lvl rest ih =>
    intro i
    by_cases h : methodMatchesSpec tm methodName vals lvl
    · simp only [firstMatchingLevel, h, if_true]
      constructor
      · intro hi
        cases hi
        exact ⟨by simpa [matchAtIdx] using h, by omega⟩
      · intro ⟨_, hall⟩
        cases i with
        | zero => rfl
        | succ i' =>
          have h0 := hall 0 (Nat.succ_pos i')
          simp [matchAtIdx, h] at h0
    · rw [Bool.not_eq_true] at h
      simp only [firstMatchingLevel, h, Bool.false_eq_true, if_false]
      constructor
      · intro hi
        rw [Option.map_eq_some'] at hi
        obtain ⟨i', hrec, hi'⟩ := hi
        subst hi'
        obtain ⟨hmatch, hall⟩ := (ih i').mp hrec
        refine ⟨by simpa [matchAtIdx] using hmatch, ?_⟩
        intro j hj
        cases j with
        | zero => simp [matchAtIdx, h]
        | succ j' =>
          have := hall j' (by omega)
          simpa [matchAtIdx] using this
      · intro ⟨hmatch, hall⟩
        cases i with
        | zero => simp [matchAtIdx, h] at hmatch
        | succ i' =>
          have hrec : firstMatchingLevel tm methodName vals rest = some i' := by
            rw [ih i']
            refine ⟨by simpa [matchAtIdx] using hmatch, ?_⟩
            intro j hj
            have := hall (j + 1) (by omega)
            simpa [matchAtIdx] using this
          simp [hrec]

/-- The scan reports no level exactly when no level matches. -/
theorem firstMatchingLevel_none_iff (tm : TypeManager) (methodName : String)
    (vals : List Value) :
    ∀ levels : List LevelState,
      firstMatchingLevel tm methodName vals levels = none ↔
        ∀ j, matchAtIdx tm methodName vals levels j = false := by
  intro levels
  induction levels with
  | nil => simp [firstMatchingLevel, matchAtIdx]
  | cons lvl rest ih =>
    by_cases h : methodMatchesSpec tm methodName vals lvl
    · simp only [firstMatchingLevel, h, if_true]
      constructor
      · intro hc; cases hc
      · intro hall
        have h0 := hall 0
        simp [matchAtIdx, h] at h0
    · rw [Bool.not_eq_true] at h
      simp only [firstMatchingLevel, h, Bool.false_eq_true, if_false,
        Option.map_eq_none']
      rw [ih]
      constructor
      · intro hall j
        cases j with
        | zero => simp [matchAtIdx, h]
        | succ j' => simpa [matchAtIdx] using hall j'
      · intro hall j
        have := hall (j + 1)
        simpa [matchAtIdx] using this

/-- A matching index denotes a real level whose method table knows the
name. -/
theorem matchAtIdx_true_elim (tm : TypeManager) (methodName : String)
    (vals : List Value) (levels : List LevelState) (i : Nat)
    (h : matchAtIdx tm methodName vals levels i = true) :
    ∃ lvl md, levels[i]? = some lvl ∧
      dictGet lvl.methods methodName = some md := by
  cases hl : levels[i]? with
  | none => simp [matchAtIdx, hl] at h
  | some lvl =>
    cases hm : dictGet lvl.methods methodName with
    | none => simp [matchAtIdx, methodMatchesSpec, hl, hm] at h
    | some md => exact ⟨lvl, md, rfl, hm⟩

/-- For an ordinary (non-`super`) call with all arguments present, once some
level starting at the called object knows the method, `call_method` runs the
body of the first matching level counted from the anchor (level 0). -/
theorem callMethod_false_eq_invoke (f : Nat) (selfRef : ObjRef)
    (methodName : String) (vals : List Value) (st : ExecState)
    (levels : List LevelState) (e k : Nat)
    (hchain : heapChainOf st selfRef.chain = some levels)
    (h1 : firstMatchingLevel st.typeManager methodName vals
      (levels.drop selfRef.level) = some e)
    (h2 : firstMatchingLevel st.typeManager methodName vals levels = some k) :
    ∃ lvl md, levels[k]? = some lvl ∧
      dictGet lvl.methods methodName = some md ∧
      callMethod (f + 1) selfRef methodName (vals.map some) false st =
        invokeMethodAt f selfRef.chain k md (vals.map some) st := by
  obtain ⟨hmk, -⟩ :=
    (firstMatchingLevel_some_iff st.typeManager methodName vals levels k).mp h2
  obtain ⟨lvl, md, hlv, hmd⟩ :=
    matchAtIdx_true_elim st.typeManager methodName vals levels k hmk
  refine ⟨lvl, md, hlv, hmd, ?_⟩
  simp only [callMethod, hchain, getObjWithMethodFrom_eq_firstMatchingLevel,
    h1, h2, List.drop_zero, Except.bind, bind, if_false, Bool.false_eq_true,
    Nat.zero_add, hlv, hmd, reduceCtorEq, reduceIte]

/-- For a `super`-only call with all arguments present, `call_method` runs
the body of the first matching level counted from the called object itself,
i.e. at an absolute level index at or below the called object's level. -/
theorem callMethod_true_eq_invoke (f : Nat) (selfRef : ObjRef)
    (methodName : String) (vals : List Value) (st : ExecState)
    (levels : List LevelState) (e : Nat)
    (hchain : heapChainOf st selfRef.chain = some levels)
    (h1 : firstMatchingLevel st.typeManager methodName vals
      (levels.drop selfRef.level) = some e) :
    ∃ lvl md, levels[selfRef.level + e]? = some lvl ∧
      dictGet lvl.methods methodName = some md ∧
      callMethod (f + 1) selfRef methodName (vals.map some) true st =
        invokeMethodAt f selfRef.chain (selfRef.level + e) md
          (vals.map some) st := by
  obtain ⟨hme, -⟩ :=
    (firstMatchingLevel_some_iff st.typeManager methodName vals
      (levels.drop selfRef.level) e).mp h1
  obtain ⟨lvl, md, hlv, hmd⟩ :=
    matchAtIdx_true_elim st.typeManager methodName vals
      (levels.drop selfRef.level) e hme
  rw [List.getElem?_drop] at hlv
  refine ⟨lvl, md, hlv, hmd, ?_⟩
  simp only [callMethod, hchain, getObjWithMethodFrom_eq_firstMatchingLevel,
    h1, Except.bind, bind, if_true, hlv, hmd, reduceCtorEq, reduceIte]

/-! ## Claim C1 -/

/-- C1: For every method call on an object, dispatch scans the runtime
levels most-derived first starting at the anchor, and the first level
containing a method whose name matches, whose formal-parameter count equals
the number of actual arguments, and whose every formal type is compatible
with the corresponding actual argument's runtime type is the one whose
method body executes; no later (more-base) level is considered once such a
level is found.  Formally: (i) the implementation's scan
`getObjWithMethodFrom` returns exactly the specification's first matching
level; (ii) that level is the unique index that matches while every
more-derived index fails to match; (iii) an ordinary `call_method` runs the
body of that first matching level counted from the anchor (level 0). -/
theorem claim1_dispatch_first_matching_level :
    (∀ (tm : TypeManager) (methodName : String) (vals : List Value)
        (levels : List LevelState),
      getObjWithMethodFrom tm methodName (vals.map some) levels =
        .ok (firstMatchingLevel tm methodName vals levels)) ∧
    (∀ (tm : TypeManager) (methodName : String) (vals : List Value)
        (levels : List LevelState) (i : Nat),
      firstMatchingLevel tm methodName vals levels = some i ↔
        (matchAtIdx tm methodName vals levels i = true ∧
          ∀ j < i, matchAtIdx tm methodName vals levels j = false)) ∧
    (∀ (f : Nat) (selfRef : ObjRef) (methodName : String) (vals : List Value)
        (st : ExecState) (levels : List LevelState) (e k : Nat),
      heapChainOf st selfRef.chain = some levels →
      firstMatchingLevel st.typeManager methodName vals
        (levels.drop selfRef.level) = some e →
      firstMatchingLevel st.typeManager methodName vals levels = some k →
      ∃ lvl md, levels[k]? = some lvl ∧
        dictGet lvl.methods methodName = some md ∧
        callMethod (f + 1) selfRef methodName (vals.map some) false st =
          invokeMethodAt f selfRef.chain k md (vals.map some) st) :=
  ⟨fun tm methodName vals levels =>
      getObjWithMethodFrom_eq_firstMatchingLevel tm methodName vals levels,
    fun tm methodName vals levels i =>
      firstMatchingLevel_some_iff tm methodName vals levels i,
    fun f selfRef methodName vals st levels e k hchain h1 h2 =>
      callMethod_false_eq_invoke f selfRef methodName vals st levels e k
        hchain h1 h2⟩

/-- A two-level `Animal`/`Dog` instance used to witness the dispatch
claims. -/
def mdSpeakA : MethodDef :=
  { methodName := "speak", returnType := nothingTy, formalParams := []
    code := sl [sa printDef, sa "\x22A\x22"] }

def mdSpeakD : MethodDef :=
  { methodName := "speak", returnType := nothingTy, formalParams := []
    code := sl [sa printDef, sa "\x22D\x22"] }

def cdAnimalW : ClassDef := .mk "Animal" [] [mdSpeakA] none

def cdDogW : ClassDef := .mk "Dog" [] [mdSpeakD] (some cdAnimalW)

def stDogW : ExecState :=
  { ExecState.init [] with heap := [buildChain cdDogW] }

/-- Witness for C1 at a concrete two-level instance: calling `speak` on the
`Dog` anchor runs the method found at level 0 (the `Dog` override). -/
theorem claim1_witness :
    ∃ lvl md, (buildChain cdDogW)[0]? = some lvl ∧
      dictGet lvl.methods "speak" = some md ∧
      callMethod 5 ⟨0, 0⟩ "speak" [] false stDogW =
        invokeMethodAt 4 0 0 md [] stDogW := by
  have h := claim1_dispatch_first_matching_level.2.2 4 ⟨0, 0⟩ "speak" []
    stDogW (buildChain cdDogW) 0 0 rfl (by decide) (by decide)
  exact h

/-! ## Claim C2 -/

/-- A three-level inheritance chain `C extends B extends A` in which each
`speak` override prints its own letter and the two derived overrides chain
through `super.speak`. -/
def mdChainA : MethodDef :=
  { methodName := "speak", returnType := nothingTy, formalParams := []
    code := sl [sa printDef, sa "\x22A\x22"] }

def mdChainB : MethodDef :=
  { methodName := "speak", returnType := nothingTy, formalParams := []
    code := sl [sa beginDef, sl [sa printDef, sa "\x22B\x22"],
      sl [sa callDef, sa superDef, sa "speak"]] }

def mdChainC : MethodDef :=
  { methodName := "speak", returnType := nothingTy, formalParams := []
    code := sl [sa beginDef, sl [sa printDef, sa "\x22C\x22"],
      sl [sa callDef, sa superDef, sa "speak"]] }

def cdChainA : ClassDef := .mk "A" [] [mdChainA] none

def cdChainB : ClassDef := .mk "B" [] [mdChainB] (some cdChainA)

def cdChainC : ClassDef := .mk "C" [] [mdChainC] (some cdChainB)

/-- A state holding one instantiated `C` object (three runtime levels). -/
def stChain3 : ExecState :=
  { ExecState.init [] with heap := [buildChain cdChainC] }

/-- The output of a call observed through the heap state. -/
def callOutput (fuel : Nat) (selfRef : ObjRef) (methodName : String)
    (st : ExecState) : Option (List String) :=
  match callMethod fuel selfRef methodName [] false st with
  | .ok (_, st') => some st'.output
  | .error _ => none

/-- C2: For every call made through `super` from inside a method resolved at
some level, the method search starts at the level immediately below (more
base than) the level where the currently executing method was resolved, and
never matches a method at the resolving level or any more-derived level,
including across three or more inheritance levels.  Formally: (i) a
`(call super m)` statement executed at level `L` either reports a type error
(no superpart) or becomes a `super`-only `call_method` on level `L + 1`;
(ii) a `super`-only `call_method` on a level runs the body of a level at
or below that level (absolute index `selfRef.level + e`, hence strictly
below the resolving level `L`); (iii) on a concrete three-level chain the
overridden `speak` bodies chain `C`, `B`, `A` without re-entering a more
derived level. -/
theorem claim2_super_call_searches_below :
    (∀ (f : Nat) (selfRef : ObjRef) (env : Env) (m : String) (st : ExecState)
        (levels : List LevelState),
      heapChainOf st selfRef.chain = some levels →
      (selfRef.level + 1 < levels.length →
        executeCallAux (f + 3) selfRef env [sa callDef, sa superDef, sa m]
          st =
          callMethod (f + 1) ⟨selfRef.chain, selfRef.level + 1⟩ m [] true
            st) ∧
      (¬ selfRef.level + 1 < levels.length →
        executeCallAux (f + 3) selfRef env [sa callDef, sa superDef, sa m]
          st = .error (.hostError .typeError))) ∧
    (∀ (f : Nat) (selfRef : ObjRef) (methodName : String) (vals : List Value)
        (st : ExecState) (levels : List LevelState) (e : Nat),
      heapChainOf st selfRef.chain = some levels →
      firstMatchingLevel st.typeManager methodName vals
        (levels.drop selfRef.level) = some e →
      ∃ lvl md, levels[selfRef.level + e]? = some lvl ∧
        dictGet lvl.methods methodName = some md ∧
        callMethod (f + 1) selfRef methodName (vals.map some) true st =
          invokeMethodAt f selfRef.chain (selfRef.level + e) md
            (vals.map some) st) ∧
    callOutput 40 ⟨0, 0⟩ "speak" stChain3 = some ["C", "B", "A"] := by
  refine ⟨?_, ?_, by decide⟩
  · intro f selfRef env m st levels hchain
    constructor
    · intro hsup
      simp [executeCallAux, executeCallOn, evaluateArgs, listAt, sa,
        superDef, meDef, hchain, hsup, Except.bind, bind]
    · intro hsup
      simp [executeCallAux, listAt, sa, superDef, meDef, hchain, hsup,
        Except.bind, bind]
  · intro f selfRef methodName vals st levels e hchain h1
    exact callMethod_true_eq_invoke f selfRef methodName vals st levels e
      hchain h1

/-- Witness for C2's conditional parts at the concrete `Dog` instance:
a `super` call from level 0 routes to a `super`-only call on level 1, and
that call resolves at level 1 (the `Animal` override), never at level 0. -/
theorem claim2_witness :
    (executeCallAux 7 ⟨0, 0⟩ Env.empty [sa callDef, sa superDef, sa "speak"]
        stDogW =
      callMethod 5 ⟨0, 1⟩ "speak" [] true stDogW) ∧
    ∃ lvl md, (buildChain cdDogW)[1]? = some lvl ∧
      dictGet lvl.methods "speak" = some md ∧
      callMethod 5 ⟨0, 1⟩ "speak" [] true stDogW =
        invokeMethodAt 4 0 1 md [] stDogW := by
  constructor
  · exact (claim2_super_call_searches_below.1 4 ⟨0, 0⟩ Env.empty "speak"
      stDogW (buildChain cdDogW) rfl).1 (by decide)
  · exact claim2_super_call_searches_below.2.1 4 ⟨0, 1⟩ "speak" [] stDogW
      (buildChain cdDogW) 0 rfl (by decide)

/-! ## Claim C3 -/

/-- A program whose `main` prints the result of calling a method `f` of
declared return type `int` that executes a bare `return`. -/
def progReturnDefault : List SExpr :=
  [sl [sa classDef, sa "main",
     sl [sa methodDef, sa intDef, sa "f", sl [], sl [sa returnDef]],
     sl [sa methodDef, sa voidDef, sa "main", sl [],
       sl [sa printDef, sl [sa callDef, sa meDef, sa "f"]]]]]

/-- C3: For every method invocation: if the body finishes with a RETURN
status carrying no value (bare `return` or falling off the end), the caller
receives the default value of the method's declared return type; if a
`return` operand evaluates to a typeless null, it is stamped with the
declared return type before the compatibility check against the declared
return type, and an incompatible returned value is a type error.
Formally: (i) a bare `return` yields RETURN with no value; (ii) at the
call boundary, a RETURN with no value — or a body that merely proceeds —
makes the caller receive the declared return type's default value; (iii) a
returned typeless null is stamped with the declared return type when
compatible, and reported as a type error when not; (iv) any other returned
value is checked against the declared return type, an incompatible one
being a type error; (v) end to end, printing the result of an
`int`-returning method that executes a bare `return` prints `0`. -/
theorem claim3_return_default_and_null_stamping :
    (∀ (f : Nat) (selfRef : ObjRef) (env : Env) (returnType : Ty)
        (st : ExecState),
      executeReturn (f + 1) selfRef env returnType [sa returnDef] st =
        .ok ((.ret, none), env, st)) ∧
    (∀ (f : Nat) (chainId k : Nat) (md : MethodDef)
        (actuals : List (Option Value)) (st : ExecState) (env0 : Env)
        (r : StmtRes) (env' : Env) (st' : ExecState),
      bindFormals Env.empty md.formalParams actuals = .ok (.bound env0) →
      executeStatement f ⟨chainId, k⟩ env0 md.returnType md.code st =
        .ok (r, env', st') →
      (r = (Status.ret, none) ∨ r.1 = Status.proceed) →
      invokeMethodAt (f + 1) chainId k md actuals st =
        .ok ((.proceed, createDefaultValue md.returnType), st')) ∧
    (∀ (f : Nat) (selfRef : ObjRef) (env : Env) (returnType : Ty) (e : SExpr)
        (st st1 : ExecState) (v : Value),
      evaluateExpression f selfRef env e st = .ok ((.proceed, some v), st1) →
      v.isTypelessNull = true →
      (st1.typeManager.checkTypeCompatibility returnType v.typ true = true →
        executeReturn (f + 1) selfRef env returnType [sa returnDef, e] st =
          .ok ((.ret, some ⟨returnType, .null⟩), env, st1)) ∧
      (st1.typeManager.checkTypeCompatibility returnType v.typ true = false →
        executeReturn (f + 1) selfRef env returnType [sa returnDef, e] st =
          .error (.hostError .typeError))) ∧
    (∀ (f : Nat) (selfRef : ObjRef) (env : Env) (returnType : Ty) (e : SExpr)
        (st st1 : ExecState) (v : Value),
      evaluateExpression f selfRef env e st = .ok ((.proceed, some v), st1) →
      v.isTypelessNull = false →
      (st1.typeManager.checkTypeCompatibility returnType v.typ true = true →
        executeReturn (f + 1) selfRef env returnType [sa returnDef, e] st =
          .ok ((.ret, some v), env, st1)) ∧
      (st1.typeManager.checkTypeCompatibility returnType v.typ true = false →
        executeReturn (f + 1) selfRef env returnType [sa returnDef, e] st =
          .error (.hostError .typeError))) ∧
    runOutput 30 progReturnDefault [] = some ["0"] := by
  refine ⟨?_, ?_, ?_, ?_, by decide⟩
  · intro f selfRef env returnType st
    simp [executeReturn]
  · intro f chainId k md actuals st env0 r env' st' hbind hexec hr
    obtain ⟨r1, r2⟩ := r
    simp only [invokeMethodAt, hbind, hexec, Except.bind, bind]
    rcases hr with hr | hr
    · cases hr; rfl
    · simp only at hr
      subst hr
      rfl
  · intro f selfRef env returnType e st st1 v heval htn
    constructor
    · intro hcompat
      have hnn : ¬returnType.typeName = nothingDef := by
        intro h0
        simp only [TypeManager.checkTypeCompatibility, h0] at hcompat
        simp at hcompat
      have hself : st1.typeManager.checkTypeCompatibility returnType
          returnType true = true := by
        simp only [TypeManager.checkTypeCompatibility]
        simp [hnn]
      simp [executeReturn, listAt, heval, htn, checkTypeCompatOrError,
        hcompat, hself, Except.bind, bind]
    · intro hcompat
      simp [executeReturn, listAt, heval, htn, checkTypeCompatOrError,
        hcompat, Except.bind, bind]
  · intro f selfRef env returnType e st st1 v heval htn
    constructor
    · intro hcompat
      simp [executeReturn, listAt, heval, htn, checkTypeCompatOrError,
        hcompat, Except.bind, bind]
    · intro hcompat
      simp [executeReturn, listAt, heval, htn, checkTypeCompatOrError,
        hcompat, Except.bind, bind]

/-- Witness for C3 at a concrete input: returning the typeless null literal
from a method of declared return type `Dog` yields a RETURN whose value is a
null stamped with type `Dog`. -/
theorem claim3_witness :
    executeReturn 3 ⟨0, 0⟩ Env.empty ⟨"Dog"⟩ [sa returnDef, sa nullDef]
        stDogW =
      .ok ((.ret, some ⟨⟨"Dog"⟩, .null⟩), Env.empty, stDogW) :=
  (claim3_return_default_and_null_stamping.2.2.1 2 ⟨0, 0⟩ Env.empty
    ⟨"Dog"⟩ (sa nullDef) stDogW stDogW ⟨nullTy, .null⟩ rfl (by decide)).1
    (by decide)

/-! ## Claim C4 -/

/-- The scope frame pushed by `__execute_try` before the catch block: a
fresh frame binding the reserved exception variable (a string-typed slot) to
the thrown value. -/
def envWithCatch (env : Env) (v : Option Value) : Env :=
  ((env.blockNest.createNewSymbol exceptionVariableDef).2.set
    exceptionVariableDef ⟨stringTy, exceptionVariableDef, v⟩).2

/-- A program whose `main` catches a thrown string and prints the reserved
exception variable. -/
def progTryCatch : List SExpr :=
  [sl [sa classDef, sa "main",
     sl [sa methodDef, sa voidDef, sa "main", sl [],
       sl [sa tryDef, sl [sa throwDef, sa "\x22oops\x22"],
         sl [sa printDef, sa exceptionVariableDef]]]]]

/-- A program that throws three calls deep with no handler anywhere. -/
def progUncaught : List SExpr :=
  [sl [sa classDef, sa "main",
     sl [sa methodDef, sa voidDef, sa "main", sl [],
       sl [sa callDef, sa meDef, sa "f"]],
     sl [sa methodDef, sa voidDef, sa "f", sl [],
       sl [sa callDef, sa meDef, sa "g"]],
     sl [sa methodDef, sa voidDef, sa "g", sl [],
       sl [sa callDef, sa meDef, sa "h"]],
     sl [sa methodDef, sa voidDef, sa "h", sl [],
       sl [sa throwDef, sa "\x22deep\x22"]]]]

/-- C4: For every execution of a `try` statement: if the protected block's
status is not EXCEPTION its result is returned unchanged; if it is
EXCEPTION, a fresh scope frame is pushed binding the fixed
exception-variable name to the thrown string value, the catch block
executes, the frame is popped, and the `try` statement's result is the catch
block's own status (so a RETURN or EXCEPTION from the catch block propagates
further); an exception never caught propagates out of every enclosing method
call.  Formally: (i) a non-EXCEPTION protected-block result passes through
unchanged; (ii) an EXCEPTION result runs the catch block in a pushed frame
binding the reserved exception variable to the thrown value, pops the frame,
and passes the catch block's own result through — and the catch block really
sees the binding; (iii) an EXCEPTION status from a method body propagates
out of `call_method` as an EXCEPTION; (iv) end to end, a caught
`throw "oops"` prints `oops` via the exception variable; (v) end to end, an
uncaught `throw "deep"` three calls deep aborts the whole entry invocation
with EXCEPTION status carrying `"deep"` and produces no output. -/
theorem claim4_try_catch_and_propagation :
    (∀ (f : Nat) (selfRef : ObjRef) (env : Env) (returnType : Ty)
        (items : List SExpr) (st : ExecState) (r : StmtRes) (env1 : Env)
        (st1 : ExecState),
      executeStatement f selfRef env returnType (listAt items 1) st =
        .ok (r, env1, st1) →
      r.1 ≠ .exc →
      executeTry (f + 1) selfRef env returnType items st =
        .ok (r, env1, st1)) ∧
    (∀ (f : Nat) (selfRef : ObjRef) (env : Env) (returnType : Ty)
        (items : List SExpr) (st : ExecState) (v : Option Value) (env1 : Env)
        (st1 : ExecState),
      executeStatement f selfRef env returnType (listAt items 1) st =
        .ok ((.exc, v), env1, st1) →
      executeTry (f + 1) selfRef env returnType items st =
        (match executeStatement f selfRef (envWithCatch env1 v) returnType
            (listAt items 2) st1 with
         | .ok (r2, env5, st2) => .ok (r2, env5.blockUnnest, st2)
         | .error err => .error err) ∧
      (envWithCatch env1 v).get exceptionVariableDef =
        some ⟨stringTy, exceptionVariableDef, v⟩) ∧
    (∀ (f : Nat) (chainId k : Nat) (md : MethodDef)
        (actuals : List (Option Value)) (st : ExecState) (env0 : Env)
        (v : Option Value) (env' : Env) (st' : ExecState),
      bindFormals Env.empty md.formalParams actuals = .ok (.bound env0) →
      executeStatement f ⟨chainId, k⟩ env0 md.returnType md.code st =
        .ok ((.exc, v), env', st') →
      invokeMethodAt (f + 1) chainId k md actuals st = .ok ((.exc, v), st')) ∧
    runOutput 30 progTryCatch [] = some ["oops"] ∧
    (runResult 40 progUncaught [] =
        some (.exc, some ⟨stringTy, .str "deep"⟩) ∧
      runOutput 40 progUncaught [] = some []) := by
  refine ⟨?_, ?_, ?_, by decide, by decide, by decide⟩
  · intro f selfRef env returnType items st r env1 st1 hexec hne
    have hr : (r.1 = Status.exc) = False := by simp [hne]
    simp [executeTry, hexec, hr, Except.bind, bind]
  · intro f selfRef env returnType items st v env1 st1 hexec
    constructor
    · simp only [executeTry, hexec, Except.bind, bind]
      cases hc : executeStatement f selfRef (envWithCatch env1 v) returnType
          (listAt items 2) st1 with
      | ok r2 =>
        obtain ⟨r2', env5, st2⟩ := r2
        simp [envWithCatch] at hc
        simp [hc]
      | error err =>
        simp [envWithCatch] at hc
        simp [hc]
    · simp [envWithCatch, Env.get, Env.blockNest, Env.createNewSymbol,
        Env.set, envSetAux, dictGet, dictContains, dictInsert,
        List.findSome?]
  · intro f chainId k md actuals st env0 v env' st' hbind hexec
    simp [invokeMethodAt, hbind, hexec, Except.bind, bind]

/-- Witness for C4's conditional parts at a concrete input: a protected
block that throws makes `try` run the catch block with the exception
variable bound to the thrown string. -/
theorem claim4_witness :
    executeTry 6 ⟨0, 0⟩ Env.empty nothingTy
        [sa tryDef, sl [sa throwDef, sa "\x22oops\x22"],
          sl [sa printDef, sa exceptionVariableDef]] stDogW =
      .ok ((.proceed, none), Env.empty.blockNest.blockUnnest,
        { stDogW with output := ["oops"] }) := by
  have h := (claim4_try_catch_and_propagation.2.1 5 ⟨0, 0⟩ Env.empty
    nothingTy
    [sa tryDef, sl [sa throwDef, sa "\x22oops\x22"],
      sl [sa printDef, sa exceptionVariableDef]] stDogW
    (some ⟨stringTy, .str "oops"⟩) Env.empty stDogW rfl).1
  rw [h]
  exact rfl

/-! ## Claim C5 -/

/-- Inserting a key makes it found. -/
theorem dictGet_dictInsert_self {α : Type} (m : List (String × α)) (k : String)
    (v : α) : dictGet (dictInsert m k v) k = some v := by
  induction m with
  | nil => simp [dictInsert, dictGet]
  | cons p rest ih =>
    by_cases h : p.1 = k
    · simp [dictInsert, dictGet, h]
    · simp [dictInsert, dictGet, h, ih]

/-- A self-referential generic program: blueprint `Node(T)` holds a field of
its own instantiated type `Node@T`, and `main` declares a field of type
`Node@int`. -/
def progNode : List SExpr :=
  [sl [sa templateClassDef, sa "Node", sl [sa "T"],
     sl [sa fieldDef, sa "Node@T", sa "next", sa nullDef]],
   sl [sa classDef, sa "main",
     sl [sa fieldDef, sa "Node@int", sa "head", sa nullDef],
     sl [sa methodDef, sa voidDef, sa "main", sl [],
       sl [sa printDef, sa "\x22ok\x22"]]]]

/-- The blueprint of `progNode` on its own. -/
def tdefNode : TemplateClassDef :=
  TemplateClassDef.ofSource
    [sa templateClassDef, sa "Node", sl [sa "T"],
      sl [sa fieldDef, sa "Node@T", sa "next", sa nullDef]]

/-- A registry state in which `Node@int` is already registered (as a
placeholder). -/
def stNodePending : ExecState :=
  { ExecState.init [] with
      templateIndex := [("Node", tdefNode)]
      classIndex := [("Node@int", none)] }

set_option maxHeartbeats 1600000 in
/-- C5: Instantiating a generic blueprint whose body refers to its own
instantiation (e.g. a node class with a field of its own parameterized type)
terminates: the mangled name is registered as a placeholder in the class
index before the nested generic references in the body are recursively
resolved, so instantiation never recurses unboundedly.  Formally: (i) the
compound-type resolution step performed for every field (and return and
parameter) type returns at once — with the state unchanged and without any
call to `instantiate_class`, whatever the remaining fuel — as soon as the
mangled name is in the class index; (ii) when the mangled name is not yet
registered, the resolution step first extends the class index with the
mangled name as a placeholder and only then instantiates the blueprint in
that extended state, in which the mangled name is already registered (so the
nested resolution of the self-reference hits case (i) instead of recursing);
(iii) on the concrete self-referential `Node` program, the whole run
terminates with output `ok` and with the concrete class `Node@int`
registered. -/
theorem claim5_self_referential_instantiation_terminates :
    (∀ (f : Nat) (typeStr : String) (st : ExecState)
        (tdef : TemplateClassDef),
      (splitParts typeStr).length > 1 →
      dictGet st.templateIndex ((splitParts typeStr).headD "") = some tdef →
      dictContains st.classIndex typeStr = true →
      resolveTemplateType (f + 1) typeStr st = .ok st) ∧
    (∀ (f : Nat) (typeStr : String) (st : ExecState)
        (tdef : TemplateClassDef),
      (splitParts typeStr).length > 1 →
      dictGet st.templateIndex ((splitParts typeStr).headD "") = some tdef →
      dictContains st.classIndex typeStr = false →
      (resolveTemplateType (f + 1) typeStr st =
        (do
          let (cd, st3) ← instantiateClass f tdef ((splitParts typeStr).drop 1)
            { st with
                classIndex := dictInsert st.classIndex typeStr none
                typeManager := st.typeManager.addClassType typeStr none }
          Except.ok
            { st3 with
                classIndex := dictInsert st3.classIndex typeStr (some cd) }) ∧
      dictContains
        ({ st with
            classIndex := dictInsert st.classIndex typeStr none
            typeManager := st.typeManager.addClassType typeStr none
          : ExecState }).classIndex typeStr = true)) ∧
    (runOutput 40 progNode [] = some ["ok"] ∧
      (runProgram 40 progNode []).toOption.map
        (fun r => dictContains r.2.classIndex "Node@int") = some true) := by
  refine ⟨?_, ?_, by decide, by decide⟩
  · intro f typeStr st tdef hlen htdef hmem
    rw [List.headD_eq_head?_getD] at htdef
    simp [resolveTemplateType, hlen, htdef, hmem]
  · intro f typeStr st tdef hlen htdef hmem
    constructor
    · rw [List.headD_eq_head?_getD] at htdef
      simp [resolveTemplateType, hlen, htdef, hmem, Except.bind, bind]
    · simp [dictContains, dictGet_dictInsert_self]

/-- Witness for C5's conditional parts at a concrete input: resolving
`Node@int` while it is already registered (as the placeholder) returns the
state unchanged, whatever the remaining fuel — in particular with fuel that
would forbid any nested instantiation. -/
theorem claim5_witness :
    resolveTemplateType 1 "Node@int" stNodePending = .ok stNodePending :=
  claim5_self_referential_instantiation_terminates.1 0 "Node@int"
    stNodePending tdefNode (by decide) (by decide) (by decide)

/-! ## Claim C6 -/

/-- A well-formed program whose entry class and entry method exist. -/
def progHello : List SExpr :=
  [sl [sa classDef, sa "main",
     sl [sa methodDef, sa voidDef, sa "main", sl [],
       sl [sa printDef, sa "\x22hello\x22"]]]]

/-- A program with no `main` class at all. -/
def progNoMain : List SExpr :=
  [sl [sa classDef, sa "other",
     sl [sa methodDef, sa voidDef, sa "main", sl [], sl [sa returnDef]]]]

/-- A program whose `main` class exists but has no `main` method. -/
def progMainNoMethod : List SExpr :=
  [sl [sa classDef, sa "main",
     sl [sa methodDef, sa voidDef, sa "other", sl [], sl [sa returnDef]]]]

/-- Counterexample to C6 as stated: on a program with no entry class the run
aborts with TYPE_ERROR (`Interpreter.instantiate` reports
`ErrorType.TYPE_ERROR` for an unknown class), not with NAME_ERROR as the
claim asserts. -/
theorem claim6_counterexample :
    runFault 20 progNoMain [] = some (.hostError .typeError) ∧
    ¬ runFault 20 progNoMain [] = some (.hostError .nameError) := by
  constructor
  · decide
  · decide

/-- C6 (amended): At program start the session instantiates the designated
entry class and invokes its designated entry method with no arguments,
discarding any returned value; if the entry class does not exist, the run
aborts with a type error (TYPE_ERROR); if the entry class exists but has no
matching entry method, the run aborts with a name error (NAME_ERROR).
Formally: (i) instantiating the entry class name when it is neither a
registered class nor a blueprint reports TYPE_ERROR; (ii) a call to the
entry method when no level knows it reports NAME_ERROR; (iii) end to end, a
program whose `main` class lacks a `main` method aborts with NAME_ERROR;
(iv) end to end, a well-formed program runs its entry method (its output is
produced and the entry call's returned value is not part of the run's
observable output). -/
theorem claim6_entry_point_errors :
    (∀ (f : Nat) (st : ExecState),
      dictContains st.classIndex mainClassDef = false →
      dictGet st.templateIndex "main" = none →
      instantiate (f + 1) mainClassDef st = .error (.hostError .typeError)) ∧
    (∀ (f : Nat) (selfRef : ObjRef) (st : ExecState)
        (levels : List LevelState),
      heapChainOf st selfRef.chain = some levels →
      getObjWithMethodFrom st.typeManager mainFuncDef []
        (levels.drop selfRef.level) = .ok none →
      callMethod (f + 1) selfRef mainFuncDef [] false st =
        .error (.hostError .nameError)) ∧
    runFault 20 progMainNoMethod [] = some (.hostError .nameError) ∧
    runOutput 30 progHello [] = some ["hello"] := by
  refine ⟨?_, ?_, by decide, by decide⟩
  · intro f st hcontains htmpl
    have hsplit : splitParts mainClassDef = ["main"] := rfl
    simp [instantiate, hcontains, hsplit, htmpl, Except.bind, bind]
  · intro f selfRef st levels hchain hnone
    simp [callMethod, hchain, hnone, Except.bind, bind]

/-- Witness for C6's conditional parts at a concrete input: an empty
session state has no `main` class, and instantiating it reports
TYPE_ERROR. -/
theorem claim6_witness :
    instantiate 3 mainClassDef (ExecState.init []) =
      .error (.hostError .typeError) :=
  claim6_entry_point_errors.1 2 (ExecState.init []) (by decide) (by decide)

/-! ## Claim C7 -/

/-- Unrelated classes `Dog` and `Cat`, and a `main` class holding a
`Dog`-typed and a `Cat`-typed field, both initialized to the null literal;
`main` compares the two nulls with `==`. -/
def progNullCompare : List SExpr :=
  [sl [sa classDef, sa "Dog", sl [sa fieldDef, sa intDef, sa "x", sa "0"]],
   sl [sa classDef, sa "Cat", sl [sa fieldDef, sa intDef, sa "x", sa "0"]],
   sl [sa classDef, sa "main",
     sl [sa fieldDef, sa "Dog", sa "d", sa nullDef],
     sl [sa fieldDef, sa "Cat", sa "c", sa nullDef],
     sl [sa methodDef, sa voidDef, sa "main", sl [],
       sl [sa printDef, sl [sa "==", sa "d", sa "c"]]]]]

/-- As `progNullCompare` but comparing with `!=`. -/
def progNullCompareNe : List SExpr :=
  [sl [sa classDef, sa "Dog", sl [sa fieldDef, sa intDef, sa "x", sa "0"]],
   sl [sa classDef, sa "Cat", sl [sa fieldDef, sa intDef, sa "x", sa "0"]],
   sl [sa classDef, sa "main",
     sl [sa fieldDef, sa "Dog", sa "d", sa nullDef],
     sl [sa fieldDef, sa "Cat", sa "c", sa nullDef],
     sl [sa methodDef, sa voidDef, sa "main", sl [],
       sl [sa printDef, sl [sa "!=", sa "d", sa "c"]]]]]

/-- As `progNullCompare` but printing the two null fields instead of
comparing them. -/
def progNullPrint : List SExpr :=
  [sl [sa classDef, sa "Dog", sl [sa fieldDef, sa intDef, sa "x", sa "0"]],
   sl [sa classDef, sa "Cat", sl [sa fieldDef, sa intDef, sa "x", sa "0"]],
   sl [sa classDef, sa "main",
     sl [sa fieldDef, sa "Dog", sa "d", sa nullDef],
     sl [sa fieldDef, sa "Cat", sa "c", sa nullDef],
     sl [sa methodDef, sa voidDef, sa "main", sl [],
       sl [sa beginDef, sl [sa printDef, sa "d"],
         sl [sa printDef, sa "c"]]]]]

/-- Counterexample to C7 as stated: the `==` comparison of a `Dog`-typed
null and a `Cat`-typed null does not evaluate to false — the run aborts with
a TYPE_ERROR (incompatible reference types), so there is no completed run at
all. -/
theorem claim7_counterexample :
    runFault 30 progNullCompare [] = some (.hostError .typeError) ∧
    runOutput 30 progNullCompare [] = none := by
  constructor
  · decide
  · decide

/-- C7 (amended): comparing a null read from a `Dog`-typed field against a
null read from an unrelated `Cat`-typed field aborts with a TYPE_ERROR
(incompatible operand types) — for `!=` exactly as for `==` — because every
null read from a typed location is re-tagged with that location's declared
type (formalized by `propagateTypeToNull`); both nulls nevertheless print
identically, as the host's textual null form. -/
theorem claim7_null_comparison_is_type_error :
    (∀ vd : VariableDef,
      (vd.value = none ∨ ∃ v, vd.value = some v ∧ v.isNull = true) →
      propagateTypeToNull vd = ⟨vd.type, .null⟩) ∧
    runFault 30 progNullCompareNe [] = some (.hostError .typeError) ∧
    runOutput 30 progNullPrint [] = some ["None", "None"] := by
  refine ⟨?_, by decide, by decide⟩
  intro vd hv
  rcases hv with hv | ⟨v, hv, hnull⟩
  · simp [propagateTypeToNull, hv]
  · simp [propagateTypeToNull, hv, hnull]

/-- Witness for C7's conditional part at a concrete input: reading an
uninitialized `Dog`-typed slot yields a null tagged `Dog`. -/
theorem claim7_witness :
    propagateTypeToNull ⟨⟨"Dog"⟩, "d", none⟩ = ⟨⟨"Dog"⟩, .null⟩ :=
  claim7_null_comparison_is_type_error.1 ⟨⟨"Dog"⟩, "d", none⟩ (Or.inl rfl)

/-! ## Claim C8 -/

/-- A `main` that prints a class-typed null field. -/
def progPrintNull : List SExpr :=
  [sl [sa classDef, sa "Dog", sl [sa fieldDef, sa intDef, sa "x", sa "0"]],
   sl [sa classDef, sa "main",
     sl [sa fieldDef, sa "Dog", sa "d", sa nullDef],
     sl [sa methodDef, sa voidDef, sa "main", sl [],
       sl [sa printDef, sa "d"]]]]

/-- A `main` that prints a mix of primitive literals. -/
def progPrintPrim : List SExpr :=
  [sl [sa classDef, sa "main",
     sl [sa methodDef, sa voidDef, sa "main", sl [],
       sl [sa printDef, sa "\x22abc\x22", sa "5", sa "true", sa "false"]]]]

/-- Counterexample to C8 as stated: printing a class-typed null — not a
showable primitive — reports no type error at all; the run completes and
emits the host's null rendering. -/
theorem claim8_counterexample :
    runFault 30 progPrintNull [] = none ∧
    runOutput 30 progPrintNull [] = some ["None"] := by
  constructor
  · decide
  · decide

/-- C8 (amended): For every `print` statement, each operand is evaluated in
order; a type error is reported (only) when an operand evaluates to no value
at all — a non-primitive value is not rejected; each produced value is
rendered (booleans as the fixed literal tokens true/false, everything else
via the host's textual form) and appended to the line, and once all operands
are processed the concatenation is emitted as one output line via the host.
Formally: (i) a valueless operand is a type error; (ii) an operand with a
value appends its rendering and the loop continues; (iii) booleans render as
the fixed tokens; (iv) the accumulated line is emitted when the operands are
exhausted; (v) end to end, printing a string, an integer and two booleans
emits their concatenated textual forms. -/
theorem claim8_print_renders_and_reports :
    (∀ (f : Nat) (selfRef : ObjRef) (env : Env) (e : SExpr)
        (rest : List SExpr) (acc : String) (st st1 : ExecState),
      evaluateExpression f selfRef env e st = .ok ((.proceed, none), st1) →
      executePrintList (f + 1) selfRef env (e :: rest) acc st =
        .error (.hostError .typeError)) ∧
    (∀ (f : Nat) (selfRef : ObjRef) (env : Env) (e : SExpr)
        (rest : List SExpr) (acc : String) (st st1 : ExecState) (v : Value),
      evaluateExpression f selfRef env e st = .ok ((.proceed, some v), st1) →
      executePrintList (f + 1) selfRef env (e :: rest) acc st =
        executePrintList f selfRef env rest (acc ++ renderValue v) st1) ∧
    (∀ b : Bool,
      renderValue ⟨boolTy, .bool b⟩ = if b then trueDef else falseDef) ∧
    (∀ (f : Nat) (selfRef : ObjRef) (env : Env) (acc : String)
        (st : ExecState),
      executePrintList (f + 1) selfRef env [] acc st =
        .ok ((.proceed, none), env,
          { st with output := st.output ++ [acc] })) ∧
    runOutput 30 progPrintPrim [] = some ["abc5truefalse"] := by
  refine ⟨?_, ?_, ?_, ?_, by decide⟩
  · intro f selfRef env e rest acc st st1 heval
    simp [executePrintList, heval, Except.bind, bind]
  · intro f selfRef env e rest acc st st1 v heval
    simp [executePrintList, heval, Except.bind, bind]
  · intro b
    cases b <;> rfl
  · intro f selfRef env acc st
    simp [executePrintList]

/-- Witness for C8's conditional parts at a concrete input: a `print`
operand that is a parenthesized expression with an unrecognized head yields
no value, and the print statement reports a TYPE_ERROR. -/
theorem claim8_witness :
    executePrintList 3 ⟨0, 0⟩ Env.empty [sl [sa beginDef]] "" stDogW =
      .error (.hostError .typeError) :=
  claim8_print_renders_and_reports.1 2 ⟨0, 0⟩ Env.empty (sl [sa beginDef])
    [] "" stDogW stDogW rfl

/-! ## Claim C9 -/

/-- C9: Evaluating a parenthesized expression whose head token is none of
the known binary operators, the unary `!` operator, `call`, or `new` does
not report any error of the four host error kinds and does not produce an
EXCEPTION status: it silently yields a PROCEED status with no value and
leaves the state untouched. -/
theorem claim9_unknown_head_silently_proceeds :
    ∀ (f : Nat) (selfRef : ObjRef) (env : Env) (op : String)
      (rest : List SExpr) (st : ExecState),
      op ∉ binaryOpList → op ∉ unaryOpList → op ≠ callDef → op ≠ newDef →
      evaluateExpression (f + 2) selfRef env (.lst (.atom op :: rest)) st =
        .ok ((.proceed, none), st) := by
  intro f selfRef env op rest st h1 h2 h3 h4
  simp [evaluateExpression, evaluateTail, listAt, SExpr.asAtom, h1, h2, h3,
    h4]

/-- Witness for C9 at a concrete input: a parenthesized `begin` head (a
statement keyword, not an expression operator) evaluates to PROCEED with no
value. -/
theorem claim9_witness :
    evaluateExpression 2 ⟨0, 0⟩ Env.empty (.lst [.atom beginDef])
        (ExecState.init []) =
      .ok ((.proceed, none), ExecState.init []) :=
  claim9_unknown_head_silently_proceeds 0 ⟨0, 0⟩ Env.empty beginDef []
    (ExecState.init []) (by decide) (by decide) (by decide) (by decide)

/-! ## Claim C10 -/

/-- Negating numerator and denominator leaves flooring division
unchanged. -/
theorem fdivNegNeg (a b : ℤ) : (-a).fdiv (-b) = a.fdiv b := by
  rcases a with (_ | m) | m <;> rcases b with (_ | n) | n <;>
    first
      | rfl
      | (show Int.ofNat _ = _ ; simp [Int.fdiv])

/-- For a positive divisor, `Int.fdiv` picks the unique quotient whose
multiple lies within one divisor below the dividend. -/
theorem fdivFloorPos (a b : ℤ) (h : 0 < b) :
    b * a.fdiv b ≤ a ∧ a < b * (a.fdiv b + 1) := by
  rw [Int.fdiv_eq_ediv a h.le]
  have h1 := Int.ediv_add_emod a b
  have h2 := Int.emod_nonneg a (by omega : b ≠ 0)
  have h3 := Int.emod_lt_of_pos a h
  have h4 : b * (a / b + 1) = b * (a / b) + b := by ring
  constructor
  · linarith
  · linarith

/-- The mirrored bounds for a negative divisor. -/
theorem fdivFloorNeg (a b : ℤ) (h : b < 0) :
    a ≤ b * a.fdiv b ∧ b * (a.fdiv b + 1) < a := by
  rw [← fdivNegNeg a b]
  have hpos : 0 < -b := by omega
  obtain ⟨g1, g2⟩ := fdivFloorPos (-a) (-b) hpos
  have e1 : -b * (-a).fdiv (-b) = -(b * (-a).fdiv (-b)) := by ring
  have e2 : -b * ((-a).fdiv (-b) + 1) = -(b * ((-a).fdiv (-b) + 1)) := by
    ring
  constructor
  · linarith
  · linarith

/-- `Int.fdiv` is the rational quotient rounded toward negative
infinity. -/
theorem fdivFloorRat (a b : ℤ) (hb : b ≠ 0) :
    a.fdiv b = ⌊(a : ℚ) / (b : ℚ)⌋ := by
  rw [eq_comm, Int.floor_eq_iff]
  rcases lt_or_gt_of_ne hb with hneg | hpos
  · obtain ⟨h1, h2⟩ := fdivFloorNeg a b hneg
    have hbq : (b : ℚ) < 0 := by exact_mod_cast hneg
    constructor
    · rw [le_div_iff_of_neg hbq]
      have : (a : ℚ) ≤ (b : ℚ) * (a.fdiv b : ℚ) := by exact_mod_cast h1
      nlinarith [this]
    · rw [div_lt_iff_of_neg hbq]
      have : (b : ℚ) * ((a.fdiv b : ℚ) + 1) < a := by exact_mod_cast h2
      nlinarith [this]
  · obtain ⟨h1, h2⟩ := fdivFloorPos a b hpos
    have hbq : (0 : ℚ) < b := by exact_mod_cast hpos
    constructor
    · rw [le_div_iff₀ hbq]
      have : (b : ℚ) * (a.fdiv b : ℚ) ≤ a := by exact_mod_cast h1
      nlinarith [this]
    · rw [div_lt_iff₀ hbq]
      have : (a : ℚ) < (b : ℚ) * ((a.fdiv b : ℚ) + 1) := by exact_mod_cast h2
      nlinarith [this]

/-- A `main` that prints `(/ -7 2)`. -/
def progDivide : List SExpr :=
  [sl [sa classDef, sa "main",
     sl [sa methodDef, sa voidDef, sa "main", sl [],
       sl [sa printDef, sl [sa "/", sa "-7", sa "2"]]]]]

/-- C10: For all integer operands `a` and `b` with `b` nonzero, the `/`
operator computes floor division (the quotient rounded toward negative
infinity, Python's `//`), so `(/ -7 2)` evaluates to `-4`, not `-3`; the
result is an exact arbitrary-precision integer.  Formally: (i) the `/`
lambda of the integer-operator table yields the `Int.fdiv` quotient as an
exact integer value; (ii) `Int.fdiv` is the rational quotient rounded
toward negative infinity; (iii) the expression evaluator's integer branch
applies that lambda to the two evaluated integer operands; (iv) end to end,
printing `(/ -7 2)` outputs `-4`. -/
theorem claim10_division_rounds_toward_neg_infinity :
    (∀ a b : Int, b ≠ 0 →
      applyIntOp "/" ⟨intTy, .int a⟩ ⟨intTy, .int b⟩ =
        .ok ⟨intTy, .int (a.fdiv b)⟩) ∧
    (∀ a b : Int, b ≠ 0 → a.fdiv b = ⌊(a : ℚ) / (b : ℚ)⌋) ∧
    (∀ (f : Nat) (selfRef : ObjRef) (env : Env) (e1 e2 : SExpr)
        (st st1 st2 : ExecState) (a b : Int),
      evaluateExpression f selfRef env e1 st =
        .ok ((.proceed, some ⟨intTy, .int a⟩), st1) →
      evaluateExpression f selfRef env e2 st1 =
        .ok ((.proceed, some ⟨intTy, .int b⟩), st2) →
      b ≠ 0 →
      evaluateExpression (f + 1) selfRef env (sl [sa "/", e1, e2]) st =
        .ok ((.proceed, some ⟨intTy, .int (a.fdiv b)⟩), st2)) ∧
    runOutput 20 progDivide [] = some ["-4"] := by
  refine ⟨?_, ?_, ?_, by decide⟩
  · intro a b hb
    simp [applyIntOp, Value.intValOr, hb, Except.bind, bind]
  · intro a b hb
    exact fdivFloorRat a b hb
  · intro f selfRef env e1 e2 st st1 st2 a b h1 h2 hb
    simp [evaluateExpression, listAt, sl, sa, SExpr.asAtom, h1, h2,
      applyIntOp, Value.intValOr, hb, binaryOpList, intOpNames, intTy,
      stringTy, boolTy, intDef, stringDef, boolDef, Except.bind, bind]

/-- Witness for C10's conditional parts at a concrete input: evaluating
`(/ -7 2)` on integer-literal tokens yields exactly `-4`. -/
theorem claim10_witness :
    evaluateExpression 2 ⟨0, 0⟩ Env.empty (sl [sa "/", sa "-7", sa "2"])
        stDogW =
      .ok ((.proceed, some ⟨intTy, .int (-4)⟩), stDogW) := by
  have h := claim10_division_rounds_toward_neg_infinity.2.2.1 1 ⟨0, 0⟩
    Env.empty (sa "-7") (sa "2") stDogW stDogW stDogW (-7) 2 rfl rfl
    (by decide)
  have hv : Int.fdiv (-7) 2 = -4 := by decide
  rw [hv] at h
  exact h

end Brewin
